import Mathlib

/-!
# Verification of the sensorswave Go SDK A/B evaluation core

This file gives a shallow embedding, in Lean 4, of the A/B evaluation core of
the sensorswave Go SDK (`ab.go`, `ab_types.go`, `ab_define.go`, `util.go`,
`client.go`, `track.go`) and proves or refutes the frozen specification claims
about it.

Modelling conventions:
* Go dynamic values (`any`) are the inductive `GoVal`; `nil` is `GoVal.vNull`.
  Go `float64` is modelled by `ℚ` (no claim depends on rounding).
* Go strings are Lean `String`s; their byte sequences are produced by an
  explicit UTF-8 encoder `strBytes`.
* Maps are association lists (first match wins); Go's zero-value-on-missing
  indexing is modelled with `Option.getD`.
* Fallible collaborators from the Go standard library (JSON decoding of
  payloads, RFC 3339 parsing, clock and UUID generation) are fields of a
  `World` record that the model is parameterised over.
* Stateful pieces (the sticky-cache handler) are threaded explicitly through
  `EvalSt`; each invocation of `SetStickyResult` is additionally recorded in a
  write log so that "the handler's set operation is invoked exactly once" is
  expressible.
* The mutual recursion of `evalAB` through `gate_pass`/`gate_fail` conditions
  is closed with a structural fuel parameter (`evalABFuel`); fuel `11` is
  strictly more than the source's recursion bound `maxRecursionDepth = 10`,
  so the fuel-exhaustion branch is unreachable and the entry point `evalAB`
  computes exactly what the Go code computes.
-/

/-! ## Go dynamic values (`any`) -/

/-- Model of a Go `any` (`interface{}`) value as it occurs in user properties,
condition literals and variant payloads.  `vNull` is the nil interface;
numbers keep Go's `int` / `float64` distinction (`float64` modelled by `ℚ`). -/
inductive GoVal where
  | vNull : GoVal
  | vBool : Bool → GoVal
  | vInt : Int → GoVal
  | vFloat : ℚ → GoVal
  | vStr : String → GoVal
  | vList : List GoVal → GoVal
deriving Repr

mutual

/-- Boolean structural equality on `GoVal`, modelling `reflect.DeepEqual`. -/
def GoVal.beq : GoVal → GoVal → Bool
  | .vNull, .vNull => true
  | .vBool a, .vBool b => a == b
  | .vInt a, .vInt b => a == b
  | .vFloat a, .vFloat b => a == b
  | .vStr a, .vStr b => a == b
  | .vList as, .vList bs => GoVal.beqList as bs
  | _, _ => false

/-- Pointwise `GoVal.beq` on lists. -/
def GoVal.beqList : List GoVal → List GoVal → Bool
  | [], [] => true
  | a :: as, b :: bs => GoVal.beq a b && GoVal.beqList as bs
  | _, _ => false

end

/-- Association-list lookup: Go map indexing with the comma-ok idiom. -/
def assocLookup {α : Type} (l : List (String × α)) (k : String) : Option α :=
  match l with
  | [] => none
  | (k', v) :: rest => if k' = k then some v else assocLookup rest k

/-- Association-list update: Go map assignment `m[k] = v` (replaces an
existing binding, otherwise appends). -/
def assocInsert {α : Type} (l : List (String × α)) (k : String) (v : α) :
    List (String × α) :=
  match l with
  | [] => [(k, v)]
  | (k', v') :: rest =>
      if k' = k then (k, v) :: rest else (k', v') :: assocInsert rest k v

/-! ## ASCII string helpers (strings.EqualFold, ToLower, HasPrefix, Contains) -/

/-- ASCII lower-casing of a single character (`strings.ToLower` restricted to
the ASCII operator and field names used by the evaluator). -/
def lowerChar (c : Char) : Char :=
  if 'A' ≤ c ∧ c ≤ 'Z' then Char.ofNat (c.toNat + 32) else c

/-- Lower-case a string character-wise. -/
def strLower (s : String) : String := ⟨s.data.map lowerChar⟩

/-- `strings.EqualFold` (ASCII model): case-insensitive equality. -/
def strEqFold (a b : String) : Bool := strLower a == strLower b

/-- `strings.HasPrefix (strings.ToLower op) pre`. -/
def strHasPrefixLower (s pre : String) : Bool :=
  pre.data.isPrefixOf (strLower s).data

/-- Does `sub` occur as a contiguous segment of `l`? -/
def listIsInfix (sub : List Char) : List Char → Bool
  | [] => sub.isEmpty
  | c :: rest => sub.isPrefixOf (c :: rest) || listIsInfix sub rest

/-- `strings.Contains (strings.ToLower op) sub`. -/
def strContainsLower (s sub : String) : Bool :=
  listIsInfix sub.data (strLower s).data

/-- Split a character list on a separator character (`strings.Split`). -/
def splitCharsOn (sep : Char) : List Char → List (List Char)
  | [] => [[]]
  | c :: rest =>
      let r := splitCharsOn sep rest
      if c = sep then [] :: r
      else
        match r with
        | [] => [[c]]
        | g :: gs => (c :: g) :: gs

/-- ASCII decimal digit value. -/
def digitVal (c : Char) : Option Nat :=
  if '0' ≤ c ∧ c ≤ '9' then some (c.toNat - 48) else none

/-- Parse an unsigned run of decimal digits (empty input fails). -/
def parseDigits : List Char → Option Nat
  | [] => none
  | cs => go cs 0
where
  go : List Char → Nat → Option Nat
    | [], acc => some acc
    | c :: rest, acc =>
        match digitVal c with
        | some d => go rest (acc * 10 + d)
        | none => none

/-- `strconv.ParseInt(s, 10, 64)`: optional sign, decimal digits, and the
int64 range check (out-of-range input is an error in Go). -/
def parseIntGo (cs : List Char) : Option Int :=
  match cs with
  | '+' :: rest => parseDigits rest |>.bind fun n =>
      if (n : Int) ≤ (2 ^ 63 - 1 : Int) then some (n : Int) else none
  | '-' :: rest => parseDigits rest |>.bind fun n =>
      if (n : Int) ≤ (2 ^ 63 : Int) then some (-(n : Int)) else none
  | _ => parseDigits cs |>.bind fun n =>
      if (n : Int) ≤ (2 ^ 63 - 1 : Int) then some (n : Int) else none

/-! ## UTF-8 bytes and SHA-256 (`util.go`: `hash`, `hashUint64`) -/

/-- UTF-8 encoding of one character, as byte values. -/
def charUtf8 (c : Char) : List Nat :=
  let n := c.toNat
  if n < 0x80 then [n]
  else if n < 0x800 then [0xC0 + n / 64, 0x80 + n % 64]
  else if n < 0x10000 then
    [0xE0 + n / 4096, 0x80 + (n / 64) % 64, 0x80 + n % 64]
  else
    [0xF0 + n / 262144, 0x80 + (n / 4096) % 64, 0x80 + (n / 64) % 64,
      0x80 + n % 64]

/-- The UTF-8 byte sequence of a Go string (`[]byte(s)`). -/
def strBytes (s : String) : List Nat := s.data.flatMap charUtf8

/-- 32-bit truncation. -/
def m32 (n : Nat) : Nat := n % 2 ^ 32

/-- Right rotation of a 32-bit word. -/
def rotr32 (x k : Nat) : Nat := m32 (x >>> k ||| x <<< (32 - k))

/-- SHA-256 round constants. -/
def sha256K : List Nat :=
  [1116352408, 1899447441, 3049323471, 3921009573, 961987163,
   1508970993, 2453635748, 2870763221, 3624381080, 310598401,
   607225278, 1426881987, 1925078388, 2162078206, 2614888103,
   3248222580, 3835390401, 4022224774, 264347078, 604807628,
   770255983, 1249150122, 1555081692, 1996064986, 2554220882,
   2821834349, 2952996808, 3210313671, 3336571891, 3584528711,
   113926993, 338241895, 666307205, 773529912, 1294757372,
   1396182291, 1695183700, 1986661051, 2177026350, 2456956037,
   2730485921, 2820302411, 3259730800, 3345764771, 3516065817,
   3600352804, 4094571909, 275423344, 430227734, 506948616,
   659060556, 883997877, 958139571, 1322822218, 1537002063,
   1747873779, 1955562222, 2024104815, 2227730452, 2361852424,
   2428436474, 2756734187, 3204031479, 3329325298]

/-- SHA-256 initial hash values. -/
def sha256H0 : List Nat :=
  [1779033703, 3144134277, 1013904242, 2773480762,
   1359893119, 2600822924, 528734635, 1541459225]

/-- The `n` big-endian bytes of a number (most significant first). -/
def natToBEBytes (n : Nat) : Nat → List Nat
  | 0 => []
  | k + 1 => natToBEBytes (n / 256) k ++ [n % 256]

/-- SHA-256 message padding: 0x80, zeros to 56 mod 64, then the bit length
as a 64-bit big-endian integer. -/
def sha256Pad (msg : List Nat) : List Nat :=
  let len := msg.length
  let zeros := (119 - len % 64) % 64
  msg ++ [0x80] ++ List.replicate zeros 0 ++ natToBEBytes (8 * len % 2 ^ 64) 8

/-- Group a byte list into blocks of 64 bytes (input length is a multiple of
64 after padding; a ragged tail would be emitted as a short final block). -/
def toBlocks (bs : List Nat) : List (List Nat) := go bs [] 0
where
  go : List Nat → List Nat → Nat → List (List Nat)
    | [], acc, _ => if acc.isEmpty then [] else [acc.reverse]
    | b :: rest, acc, cnt =>
        if cnt = 63 then (b :: acc).reverse :: go rest [] 0
        else go rest (b :: acc) (cnt + 1)

/-- Combine each group of 4 bytes into a big-endian 32-bit word. -/
def bytesToWords : List Nat → List Nat
  | b0 :: b1 :: b2 :: b3 :: rest =>
      (((b0 * 256 + b1) * 256 + b2) * 256 + b3) :: bytesToWords rest
  | _ => []

/-- Extend the 16 message words with `k` further schedule words. -/
def sha256Extend (w : List Nat) : Nat → List Nat
  | 0 => w
  | k + 1 =>
      let n := w.length
      let w2 := w.getD (n - 2) 0
      let w7 := w.getD (n - 7) 0
      let w15 := w.getD (n - 15) 0
      let w16 := w.getD (n - 16) 0
      let s0 := (rotr32 w15 7).xor ((rotr32 w15 18).xor (w15 >>> 3))
      let s1 := (rotr32 w2 17).xor ((rotr32 w2 19).xor (w2 >>> 10))
      sha256Extend (w ++ [m32 (w16 + s0 + w7 + s1)]) k

/-- Working state of the SHA-256 compression function. -/
structure Sha256St where
  a : Nat
  b : Nat
  c : Nat
  d : Nat
  e : Nat
  f : Nat
  g : Nat
  h : Nat

/-- One SHA-256 compression round. -/
def sha256Round (st : Sha256St) (kw : Nat × Nat) : Sha256St :=
  let S1 := (rotr32 st.e 6).xor ((rotr32 st.e 11).xor (rotr32 st.e 25))
  let ch := (st.e.land st.f).xor ((st.e.xor (2 ^ 32 - 1)).land st.g)
  let t1 := m32 (st.h + S1 + ch + kw.1 + kw.2)
  let S0 := (rotr32 st.a 2).xor ((rotr32 st.a 13).xor (rotr32 st.a 22))
  let maj := (st.a.land st.b).xor ((st.a.land st.c).xor (st.b.land st.c))
  let t2 := m32 (S0 + maj)
  ⟨m32 (t1 + t2), st.a, st.b, st.c, m32 (st.d + t1), st.e, st.f, st.g⟩

/-- Compress a single 64-byte block into the running digest words. -/
def sha256Block (hs : List Nat) (block : List Nat) : List Nat :=
  let w := sha256Extend (bytesToWords block) 48
  let init : Sha256St :=
    ⟨hs.getD 0 0, hs.getD 1 0, hs.getD 2 0, hs.getD 3 0,
     hs.getD 4 0, hs.getD 5 0, hs.getD 6 0, hs.getD 7 0⟩
  let st := (sha256K.zip w).foldl sha256Round init
  [m32 (hs.getD 0 0 + st.a), m32 (hs.getD 1 0 + st.b),
   m32 (hs.getD 2 0 + st.c), m32 (hs.getD 3 0 + st.d),
   m32 (hs.getD 4 0 + st.e), m32 (hs.getD 5 0 + st.f),
   m32 (hs.getD 6 0 + st.g), m32 (hs.getD 7 0 + st.h)]

/-- SHA-256 of a byte sequence, as 32 digest bytes. -/
def sha256 (msg : List Nat) : List Nat :=
  ((toBlocks (sha256Pad msg)).foldl sha256Block sha256H0).flatMap
    fun w => natToBEBytes w 4

/-- `util.go` `hash`: SHA-256 of a string's bytes. -/
def goHash (key : String) : List Nat := sha256 (strBytes key)

/-- `binary.BigEndian.Uint64`: the first 8 bytes as a big-endian u64. -/
def beUint64 (bs : List Nat) : Nat :=
  (bs.take 8).foldl (fun acc b => acc * 256 + b) 0

/-- `util.go` `hashUint64`: SHA-256 of `fmt.Sprintf("%s.%s", key, salt)`,
first 8 digest bytes read as a big-endian unsigned 64-bit integer. -/
def hashUint64 (key salt : String) : Nat := beUint64 (goHash (key ++ "." ++ salt))

/-! ## Value coercions (`util.go`) -/

/-- Are all characters ASCII decimal digits? -/
def allDigits (cs : List Char) : Bool := cs.all fun c => decide ('0' ≤ c ∧ c ≤ '9')

/-- Numeric value of a digit run (callers have checked `allDigits`). -/
def digitsToNat (cs : List Char) : Nat := cs.foldl (fun a c => a * 10 + (c.toNat - 48)) 0

/-- Mantissa of a decimal literal: its scaled integer value and the number of
fractional digits.  Accepts `d+`, `d+.d*`, `.d+` like `strconv.ParseFloat`. -/
def parseMantissa (cs : List Char) : Option (Nat × Nat) :=
  match splitCharsOn '.' cs with
  | [ip] => if ip ≠ [] ∧ allDigits ip then some (digitsToNat ip, 0) else none
  | [ip, fp] =>
      if (ip ≠ [] ∨ fp ≠ []) ∧ allDigits ip ∧ allDigits fp then
        some (digitsToNat (ip ++ fp), fp.length)
      else none
  | _ => none

/-- Signed decimal exponent. -/
def parseExpInt (cs : List Char) : Option Int :=
  match cs with
  | '+' :: rest => (parseDigits rest).map fun n => (n : Int)
  | '-' :: rest => (parseDigits rest).map fun n => -(n : Int)
  | _ => (parseDigits cs).map fun n => (n : Int)

/-- Integer power of ten as a rational (negative exponents allowed). -/
def pow10Q (e : Int) : ℚ :=
  if 0 ≤ e then ((10 : ℚ) ^ e.toNat) else 1 / ((10 : ℚ) ^ (-e).toNat)

/-- `strconv.ParseFloat(s, 64)` modelled as exact decimal parsing into `ℚ`
(optional sign, decimal mantissa, optional exponent). -/
def parseGoFloat (s : String) : Option ℚ :=
  let (sgn, cs) :=
    match s.data with
    | '+' :: r => ((1 : ℚ), r)
    | '-' :: r => ((-1 : ℚ), r)
    | cs => ((1 : ℚ), cs)
  match splitCharsOn 'e' (cs.map lowerChar) with
  | [m] => (parseMantissa m).map fun p => sgn * (p.1 : ℚ) / 10 ^ p.2
  | [m, ex] =>
      (parseMantissa m).bind fun p =>
        (parseExpInt ex).map fun e => sgn * (p.1 : ℚ) / 10 ^ p.2 * pow10Q e
  | _ => none

/-- `getNumericValue`: coerce integers, floats and decimal strings to a
number; everything else (bools, nil, lists) fails. -/
def getNumericValue : GoVal → Option ℚ
  | .vInt n => some (n : ℚ)
  | .vFloat q => some q
  | .vStr s => parseGoFloat s
  | _ => none

/-- `compareNumbers`: apply `f` when both sides coerce, else false. -/
def compareNumbers (a b : GoVal) (f : ℚ → ℚ → Bool) : Bool :=
  match getNumericValue a, getNumericValue b with
  | some x, some y => f x y
  | _, _ => false

/-- `deepEqual`: a nil right accepts a nil or empty-string left; otherwise
`reflect.DeepEqual` (structural equality). -/
def deepEqual (l r : GoVal) : Bool :=
  match r with
  | .vNull => GoVal.beq l .vNull || GoVal.beq l (.vStr "")
  | _ => GoVal.beq l r

/-- Decimal digits of the fractional part `r/d` (at most `k` digits,
stopping when the remainder vanishes). -/
def fracDigitsRec (r d : Nat) : Nat → List Char
  | 0 => []
  | k + 1 =>
      if r = 0 then []
      else Char.ofNat (48 + r * 10 / d) :: fracDigitsRec (r * 10 % d) d k

/-- `strconv.FormatFloat(f, 'f', -1, 64)` modelled on rationals: sign,
integer part, and the fractional digits (shortest, here up to 17 digits). -/
def formatGoFloat (q : ℚ) : String :=
  let sign := if q < 0 then "-" else ""
  let n := q.num.natAbs
  let d := q.den
  let frac := fracDigitsRec (n % d) d 17
  if frac.isEmpty then sign ++ toString (n / d)
  else sign ++ toString (n / d) ++ "." ++ ⟨frac⟩

mutual

/-- `fmt.Sprintf("%v", x)` for the modelled Go values; a nil interface
formats as `"<nil>"`. -/
def goFormatV : GoVal → String
  | .vNull => "<nil>"
  | .vBool b => if b then "true" else "false"
  | .vInt n => toString n
  | .vFloat q => formatGoFloat q
  | .vStr s => s
  | .vList xs => "[" ++ goFormatList xs ++ "]"

/-- Space-separated `%v` of list elements. -/
def goFormatList : List GoVal → String
  | [] => ""
  | [x] => goFormatV x
  | x :: rest => goFormatV x ++ " " ++ goFormatList rest

end

/-- `convertToString`: string conversion used by the membership operators. -/
def convertToString : GoVal → String
  | .vNull => ""
  | .vStr s => s
  | .vInt n => toString n
  | .vFloat q => formatGoFloat q
  | .vBool b => if b then "true" else "false"
  | .vList xs => String.intercalate "," (xs.map goFormatV)

/-- `compareStrings`: nil on either side is false; otherwise convert both to
strings and apply `f` (lower-casing first when `ignoreCase`). -/
def compareStrings (s1 s2 : GoVal) (ignoreCase : Bool) (f : String → String → Bool) : Bool :=
  match s1, s2 with
  | .vNull, _ => false
  | _, .vNull => false
  | _, _ =>
      let str1 := convertToString s1
      let str2 := convertToString s2
      if ignoreCase then f (strLower str1) (strLower str2) else f str1 str2

/-- `arrayAny`: does some element of the list `arr` satisfy `f val ·`? -/
def arrayAny (val arr : GoVal) (f : GoVal → GoVal → Bool) : Bool :=
  match arr with
  | .vList xs => xs.any (f val)
  | _ => false

/-- `splitVersionString`: split on `.`, parse every segment as an int64
(any parse failure fails the whole split, as the caller checks the error). -/
def splitVersionString (cs : List Char) : Option (List Int) :=
  (splitCharsOn '.' cs).mapM parseIntGo

/-- `compareVersionsSlice`: component-wise comparison with missing trailing
segments treated as 0; result in {-1, 0, 1}. -/
def compareVersionsSlice : List Int → List Int → Int
  | [], [] => 0
  | a :: r1, [] => if a < 0 then -1 else if 0 < a then 1 else compareVersionsSlice r1 []
  | [], b :: r2 => if 0 < b then -1 else if b < 0 then 1 else compareVersionsSlice [] r2
  | a :: r1, b :: r2 => if a < b then -1 else if b < a then 1 else compareVersionsSlice r1 r2

/-- `compareVersions`: both sides must be strings; strip the first `-`
suffix; empty or unparsable versions are false. -/
def compareVersions (a b : GoVal) (f : List Int → List Int → Bool) : Bool :=
  match a, b with
  | .vStr sa, .vStr sb =>
      let v1 := (splitCharsOn '-' sa.data).headD []
      let v2 := (splitCharsOn '-' sb.data).headD []
      if v1.isEmpty || v2.isEmpty then false
      else
        match splitVersionString v1, splitVersionString v2 with
        | some l1, some l2 => f l1 l2
        | _, _ => false
  | _, _ => false

/-! ## Time (`util.go` `getTime`), parameterised by the clock -/

/-- The calendar year containing a Unix timestamp (civil-calendar
arithmetic, `time.Unix(t, 0).Year()`). -/
def yearOfUnix (t : Int) : Int :=
  let z := Int.fdiv t 86400 + 719468
  let era := Int.fdiv z 146097
  let doe := z - era * 146097
  let yoe := Int.fdiv (doe - Int.fdiv doe 1460 + Int.fdiv doe 36524 - Int.fdiv doe 146096) 365
  let y := yoe + era * 400
  let doy := doe - (365 * yoe + Int.fdiv yoe 4 - Int.fdiv yoe 100)
  let mp := Int.fdiv (5 * doy + 2) 153
  let m := if mp < 10 then mp + 3 else mp - 9
  if m ≤ 2 then y + 1 else y

/-- The zero `time.Time` (January 1, year 1 UTC) as Unix seconds. -/
def goZeroTimeSec : Int := -62135596800

/-- `getUnixTimestamp`: numeric values as int64 (floats truncate toward 0). -/
def getUnixTimestamp : GoVal → Int
  | .vInt n => n
  | .vFloat q => if 0 ≤ q then ⌊q⌋ else ⌈q⌉
  | _ => 0

/-- External collaborators of the model: JSON decoding (`encoding/json`),
RFC 3339 parsing (`time.Parse`), the clock and the UUID source. -/
structure World where
  decodePayload : List Nat → Option (List (String × GoVal))
  decodeCache : String → Option (Option String)
  parseRFC3339 : String → Option Int
  nowYear : Int
  nowMs : Int
  newTraceID : String

/-- `getTime`: numbers are epochs (seconds, or milliseconds when the
seconds reading lands more than 100 years in the future); strings try
RFC 3339 and then integer epochs; anything else is the zero instant. -/
def getTime (w : World) : GoVal → Int
  | .vInt n =>
      if yearOfUnix n > w.nowYear + 100 then Int.tdiv n 1000 else n
  | .vFloat q =>
      let t := getUnixTimestamp (.vFloat q)
      if yearOfUnix t > w.nowYear + 100 then Int.tdiv t 1000 else t
  | .vStr s =>
      match w.parseRFC3339 s with
      | some t => t
      | none =>
          match parseIntGo s.data with
          | none => goZeroTimeSec
          | some t => if yearOfUnix t > w.nowYear + 100 then Int.tdiv t 1000 else t
  | _ => goZeroTimeSec

/-! ## Bucket bitmap (`util.go` `BucketBitmap`) -/

/-- Hex digit value (both cases). -/
def hexDigit (c : Char) : Option Nat :=
  if '0' ≤ c ∧ c ≤ '9' then some (c.toNat - 48)
  else if 'a' ≤ c ∧ c ≤ 'f' then some (c.toNat - 87)
  else if 'A' ≤ c ∧ c ≤ 'F' then some (c.toNat - 55)
  else none

/-- `hex.DecodeString`: pairs of hex digits; odd length or a bad digit is
an error. -/
def hexDecodePairs : List Char → Option (List Nat)
  | [] => some []
  | [_] => none
  | a :: b :: rest =>
      match hexDigit a, hexDigit b with
      | some ha, some hb => (hexDecodePairs rest).map fun bs => (ha * 16 + hb) :: bs
      | _, _ => none

/-- `LoadNetworkByteOrderString` into a `dataLen`-byte bitmap: decoded bytes
are copied over zeros, truncating a longer input. -/
def bitmapLoad (dataLen : Nat) (encoded : String) : Option (List Nat) :=
  (hexDecodePairs encoded.data).map fun bytes =>
    if dataLen < bytes.length then bytes.take dataLen
    else bytes ++ List.replicate (dataLen - bytes.length) 0

/-- `GetBit`: big-endian bit order within each byte; out of range is 0. -/
def bitmapGetBit (data : List Nat) (pos : Nat) : Nat :=
  if pos < data.length * 8 then (data.getD (pos / 8) 0) >>> (7 - pos % 8) % 2 else 0

/-! ## AB data model (`ab_define.go`, `ab_types.go`) -/

/-- Evaluator errors (`predef` errors plus the `fmt.Errorf` sites). -/
inductive GoErr where
  | abWithoutSticky : GoErr
  | stickyFail : String → GoErr
  | unknownCommonField : String → GoErr
  | unknownOperator : String → GoErr
  | bucketSetLoad : GoErr
  | bucketSetType : GoErr
  | emptyUserIDs : GoErr
  | eventNameEmpty : GoErr
  | abNotInited : GoErr
  | abNotReady : GoErr
  | closedClient : GoErr
  | tooManyRequests : GoErr
deriving DecidableEq, Repr

/-- A parsed variant value: `map[string]any`. -/
abbrev VarMap := List (String × GoVal)

/-- `Condition` (`ab_define.go`). -/
structure Condition where
  fieldClass : String := ""
  field : String := ""
  opt : String := ""
  value : GoVal := .vNull

/-- `Rule` (`ab_define.go`); `rollout` is the Go `float64` as `ℚ`. -/
structure Rule where
  name : String := ""
  id : String := ""
  salt : String := ""
  rollout : ℚ := 0
  conditions : List Condition := []
  override : Option String := none

/-- `ABSpec` (`ab_define.go`).  `rules` is the rule-class map; keys are the
`RuleTypEnum` strings OVERRIDE / TRAFFIC / GATE / GROUP.  `variantValues`
distinguishes Go's nil map (`none`) from an allocated one. -/
structure ABSpec where
  id : Int := 0
  key : String := ""
  name : String := ""
  typ : Int := 0
  traffic : String := ""
  subjectID : String := ""
  enabled : Bool := false
  sticky : Bool := false
  salt : String := ""
  version : Int := 0
  disableImpress : Bool := false
  rules : List (String × List Rule) := []
  variantPayloads : List (String × List Nat) := []
  variantValues : Option (List (String × VarMap)) := none

/-- `ABResult` (`ab_types.go`); all fields default to Go zero values. -/
structure ABResult where
  id : Int := 0
  key : String := ""
  typ : Int := 0
  variantID : Option String := none
  variantParamValue : Option VarMap := none
  disableImpress : Bool := false
deriving Repr

/-- `ABResult.CheckFeatureGate`: nil variant fails; otherwise the variant
must equal `VariantIDPass` (`"pass"`). -/
def ABResult.checkFeatureGate (r : ABResult) : Bool :=
  match r.variantID with
  | none => false
  | some v => v == "pass"

/-- `User` (`types.go`): identity plus AB targeting properties. -/
structure User where
  anonID : String := ""
  loginID : String := ""
  abUserProperties : List (String × GoVal) := []

/-- `ABEnv`: environment flags of a snapshot. -/
structure ABEnvM where
  alwaysTrack : Bool := false
deriving DecidableEq

/-- `storage`: an immutable snapshot of specs keyed by spec key. -/
structure StorageM where
  updateTime : Int := 0
  abEnv : ABEnvM := {}
  specs : List (String × ABSpec) := []

/-- Sticky-handler failure injection: `GetStickyResult` / `SetStickyResult`
error behaviour of the caller-supplied handler.  The handler's stored data
lives in `EvalSt.cache`. -/
structure StickyCfg where
  getErr : String → Option GoErr := fun _ => none
  setErr : String → String → Option GoErr := fun _ _ => none

/-- `ABCore` as the evaluator sees it: the world, the (possibly absent)
snapshot, and the (possibly absent) sticky handler. -/
structure ABCoreM where
  world : World
  storage : Option StorageM := none
  sticky : Option StickyCfg := none

/-- `getABSpec`: nil storage or a missing key yields no spec. -/
def getABSpec (abc : ABCoreM) (key : String) : Option ABSpec :=
  match abc.storage with
  | none => none
  | some s => assocLookup s.specs key

/-- Threaded evaluation state: the sticky handler's stored data and the log
of `SetStickyResult` invocations. -/
structure EvalSt where
  cache : List (String × String) := []
  writes : List (String × String) := []
deriving DecidableEq, Repr

/-- Output of `evalAB`: final state, the (possibly partial) result, and the
error — Go returns the result and the error together. -/
structure StepOut where
  st : EvalSt
  result : ABResult
  err : Option GoErr
deriving Repr

/-- Output of a `(bool, error)` check with threaded state. -/
structure CondOut where
  st : EvalSt
  pass : Bool
  err : Option GoErr

/-- Output of a rule-class pass: `(handled bool, err error)` plus the
mutated result. -/
structure HandledOut where
  st : EvalSt
  result : ABResult
  handled : Bool
  err : Option GoErr

/-- Output of `evalABRules` before normalization: result, local `pass`
flag and error. -/
structure CoreOut where
  st : EvalSt
  result : ABResult
  pass : Bool
  err : Option GoErr

/-- `maxRecursionDepth` (`ab.go`). -/
def maxRecursionDepth : Nat := 10

/-- `getEvalID`: `anon_id` / `login_id` select the user ids
(case-insensitively); any other subject formats the AB-property value with
`fmt.Sprintf("%v", ·)`, so a missing key formats the nil interface. -/
def getEvalID (user : User) (spec : ABSpec) : String :=
  if strEqFold spec.subjectID "anon_id" then user.anonID
  else if strEqFold spec.subjectID "login_id" then user.loginID
  else goFormatV ((assocLookup user.abUserProperties spec.subjectID).getD .vNull)

/-- `targetValue`: the cohort/tag lookup is unimplemented and returns nil. -/
def targetValue (_evalID _targetKey : String) : GoVal := .vNull

/-- `evalCondNumberMatch`. -/
def evalCondNumberMatch (op : String) (left right : GoVal) : Bool :=
  if strEqFold op "gt" then compareNumbers left right fun x y => x > y
  else if strEqFold op "gte" then compareNumbers left right fun x y => x ≥ y
  else if strEqFold op "lt" then compareNumbers left right fun x y => x < y
  else if strEqFold op "lte" then compareNumbers left right fun x y => x ≤ y
  else false

/-- `evalCondBasicMatch`. -/
def evalCondBasicMatch (op : String) (left right : GoVal) : Bool :=
  if strEqFold op "is_null" then GoVal.beq left .vNull
  else if strEqFold op "is_not_null" then !GoVal.beq left .vNull
  else if strEqFold op "is_true" then
    match left with
    | .vBool b => b
    | _ => false
  else if strEqFold op "is_false" then
    match left with
    | .vBool b => !b
    | _ => false
  else if strEqFold op "eq" then deepEqual left right
  else if strEqFold op "neq" then !deepEqual left right
  else false

/-- `evalCondTimeMatch`. -/
def evalCondTimeMatch (w : World) (op : String) (left right : GoVal) : Bool :=
  if strEqFold op "before" then getTime w left < getTime w right
  else if strEqFold op "after" then getTime w left > getTime w right
  else false

/-- `evalCondVersionMatch`. -/
def evalCondVersionMatch (op : String) (left right : GoVal) : Bool :=
  if strEqFold op "version_gt" then compareVersions left right fun x y => compareVersionsSlice x y > 0
  else if strEqFold op "version_gte" then compareVersions left right fun x y => compareVersionsSlice x y ≥ 0
  else if strEqFold op "version_lt" then compareVersions left right fun x y => compareVersionsSlice x y < 0
  else if strEqFold op "version_lte" then compareVersions left right fun x y => compareVersionsSlice x y ≤ 0
  else if strEqFold op "version_eq" then compareVersions left right fun x y => compareVersionsSlice x y = 0
  else if strEqFold op "version_neq" then compareVersions left right fun x y => compareVersionsSlice x y ≠ 0
  else false

/-- `evalCondArrayMatch`. -/
def evalCondArrayMatch (op : String) (left right : GoVal) : Bool :=
  if strEqFold op "any_of_case_insensitive" then
    arrayAny left right fun x y => compareStrings x y false strEqFold
  else if strEqFold op "none_of_case_insensitive" then
    !arrayAny left right fun x y => compareStrings x y false strEqFold
  else if strEqFold op "any_of_case_sensitive" then
    arrayAny left right fun x y => compareStrings x y false fun s1 s2 => s1 == s2
  else if strEqFold op "none_of_case_sensitive" then
    !arrayAny left right fun x y => compareStrings x y false fun s1 s2 => s1 == s2
  else false

/-- `uint64(rule.Rollout * 100)`: the rollout threshold as an integer
(truncation of the product; rollouts are in [0, 100]). -/
def rolloutThreshold (q : ℚ) : Nat := (⌊q * 100⌋).toNat

/-- The recursion interface: an evaluation of one spec at one depth. -/
abbrev RecurT := EvalSt → User → ABSpec → Nat → StepOut

/-! ## Spec evaluator (`ab.go`) -/

/-- `evalCondGateMatch`: evaluate the spec named by the condition field with
the current (already incremented) depth; a missing dependent spec is a
plain false, an evaluation error propagates. -/
def evalCondGateMatchF (abc : ABCoreM) (recur : RecurT) (user : User)
    (field : String) (index : Nat) (invert : Bool) (st : EvalSt) : CondOut :=
  match getABSpec abc field with
  | none => ⟨st, false, none⟩
  | some gate =>
      let o := recur st user gate index
      match o.err with
      | some e => ⟨o.st, false, some e⟩
      | none =>
          let pass := o.result.checkFeatureGate
          ⟨o.st, if invert then !pass else pass, none⟩

/-- `evalCondMatch`: operator dispatch, in source order. -/
def evalCondMatchF (abc : ABCoreM) (recur : RecurT) (user : User)
    (cond : Condition) (left right : GoVal) (evalID : String) (index : Nat)
    (st : EvalSt) : CondOut :=
  let op := cond.opt
  if strEqFold op "gt" || strEqFold op "gte" || strEqFold op "lt" || strEqFold op "lte" then
    ⟨st, evalCondNumberMatch op left right, none⟩
  else if strHasPrefixLower op "version_" then
    ⟨st, evalCondVersionMatch op left right, none⟩
  else if strContainsLower op "_of_" then
    ⟨st, evalCondArrayMatch op left right, none⟩
  else if strEqFold op "is_null" || strEqFold op "is_not_null" || strEqFold op "is_true"
      || strEqFold op "is_false" || strEqFold op "eq" || strEqFold op "neq" then
    ⟨st, evalCondBasicMatch op left right, none⟩
  else if strEqFold op "before" || strEqFold op "after" then
    ⟨st, evalCondTimeMatch abc.world op left right, none⟩
  else if strEqFold op "bucket_set" then
    match right with
    | .vStr bucket =>
        let bucketBit := hashUint64 evalID cond.field % 1000
        match bitmapLoad 125 bucket with
        | none => ⟨st, false, some .bucketSetLoad⟩
        | some data => ⟨st, bitmapGetBit data bucketBit == 1, none⟩
    | _ => ⟨st, false, some .bucketSetType⟩
  else if strEqFold op "gate_pass" then
    evalCondGateMatchF abc recur user cond.field index false st
  else if strEqFold op "gate_fail" then
    evalCondGateMatchF abc recur user cond.field index true st
  else ⟨st, false, some (.unknownOperator op)⟩

/-- `evalCond`: resolve the left value from the field class, then match. -/
def evalCondF (abc : ABCoreM) (recur : RecurT) (user : User) (cond : Condition)
    (evalID : String) (index : Nat) (st : EvalSt) : CondOut :=
  if strEqFold cond.fieldClass "common" then
    if strEqFold cond.field "public" then ⟨st, true, none⟩
    else ⟨st, false, some (.unknownCommonField cond.field)⟩
  else
    let left : GoVal :=
      if strEqFold cond.fieldClass "ffuser" then
        if strEqFold cond.field "login_id" && user.loginID ≠ "" then .vStr user.loginID
        else if strEqFold cond.field "anon_id" && user.anonID ≠ "" then .vStr user.anonID
        else .vNull
      else if strEqFold cond.fieldClass "props" then
        (assocLookup user.abUserProperties cond.field).getD .vNull
      else if strEqFold cond.fieldClass "target" then
        targetValue evalID cond.field
      else .vStr cond.field
    evalCondMatchF abc recur user cond left cond.value evalID index st

/-- The condition loop of `evalRule`: short-circuit on the first error or
first failing condition. -/
def condsLoopF (condEval : Condition → EvalSt → CondOut) :
    List Condition → EvalSt → CondOut
  | [], st => ⟨st, true, none⟩
  | c :: rest, st =>
      let o := condEval c st
      match o.err with
      | some e => ⟨o.st, false, some e⟩
      | none => if o.pass then condsLoopF condEval rest o.st else ⟨o.st, false, none⟩

/-- `evalRule`: rollout 0 short-circuits to false before any condition or
hash; then all conditions must pass; rollout 100 short-circuits to true;
otherwise the hash bucket of `(evalID, rule.salt)` decides. -/
def evalRuleF (condEval : Condition → EvalSt → CondOut) (rule : Rule)
    (evalID : String) (st : EvalSt) : CondOut :=
  if rule.rollout = 0 then ⟨st, false, none⟩
  else
    let c := condsLoopF condEval rule.conditions st
    match c.err with
    | some e => ⟨c.st, false, some e⟩
    | none =>
        if !c.pass then ⟨c.st, false, none⟩
        else if rule.rollout = 100 then ⟨c.st, true, none⟩
        else
          ⟨c.st, decide (hashUint64 evalID rule.salt % 10000 < rolloutThreshold rule.rollout),
            none⟩

/-- The OVERRIDE rule loop (`evalABOverrides`): the first passing rule with
a non-nil override sets the variant (and its value when the variant table
is non-nil) and handles the spec. -/
def overridesLoopF (ruleEval : Rule → EvalSt → CondOut)
    (vv : Option (List (String × VarMap))) :
    List Rule → EvalSt → ABResult → HandledOut
  | [], st, r => ⟨st, r, false, none⟩
  | rule :: rest, st, r =>
      let c := ruleEval rule st
      match c.err with
      | some e => ⟨c.st, r, false, some e⟩
      | none =>
          if c.pass then
            match rule.override with
            | some ov =>
                let r := { r with variantID := some ov }
                let r :=
                  match vv with
                  | some table => { r with variantParamValue := assocLookup table ov }
                  | none => r
                ⟨c.st, r, true, none⟩
            | none => overridesLoopF ruleEval vv rest c.st r
          else overridesLoopF ruleEval vv rest c.st r

/-- The TRAFFIC rule loop (`evalABTraffic`): the first failing rule is
decisive — its override (if any) becomes the variant and the spec is
handled. -/
def trafficLoopF (ruleEval : Rule → EvalSt → CondOut) :
    List Rule → EvalSt → ABResult → HandledOut
  | [], st, r => ⟨st, r, false, none⟩
  | rule :: rest, st, r =>
      let c := ruleEval rule st
      match c.err with
      | some e => ⟨c.st, r, false, some e⟩
      | none =>
          if !c.pass then
            let r :=
              match rule.override with
              | some ov => { r with variantID := some ov }
              | none => r
            ⟨c.st, r, true, none⟩
          else trafficLoopF ruleEval rest c.st r

/-- The GATE rule loop (`evalABGates`): the first passing rule handles the
spec, applying its override and the (possibly nil) variant table lookup. -/
def gatesLoopF (ruleEval : Rule → EvalSt → CondOut)
    (vv : Option (List (String × VarMap))) :
    List Rule → EvalSt → ABResult → HandledOut
  | [], st, r => ⟨st, r, false, none⟩
  | rule :: rest, st, r =>
      let c := ruleEval rule st
      match c.err with
      | some e => ⟨c.st, r, false, some e⟩
      | none =>
          if c.pass then
            let r :=
              match rule.override with
              | some ov =>
                  { r with
                    variantID := some ov
                    variantParamValue := assocLookup (vv.getD []) ov }
              | none => r
            ⟨c.st, r, true, none⟩
          else gatesLoopF ruleEval vv rest c.st r

/-- The GROUP rule loop (`evalABExperiments`): the first passing rule
applies its override and breaks. -/
def groupsLoopF (ruleEval : Rule → EvalSt → CondOut)
    (vv : Option (List (String × VarMap))) :
    List Rule → EvalSt → ABResult → HandledOut
  | [], st, r => ⟨st, r, false, none⟩
  | rule :: rest, st, r =>
      let c := ruleEval rule st
      match c.err with
      | some e => ⟨c.st, r, false, some e⟩
      | none =>
          if c.pass then
            let r :=
              match rule.override with
              | some ov =>
                  { r with
                    variantID := some ov
                    variantParamValue := assocLookup (vv.getD []) ov }
              | none => r
            ⟨c.st, r, false, none⟩
          else groupsLoopF ruleEval vv rest c.st r

/-- `ABTypEnum` values used by the evaluator. -/
def abTypGate : Int := 1

/-- `ABTypEnum` value for configs. -/
def abTypConfig : Int := 2

/-- `ABTypEnum` value for experiments. -/
def abTypExp : Int := 3

/-- `evalABOverrides`: the OVERRIDE rule-class lookup and loop (a missing
class is a no-op). -/
def evalABOverridesF (ruleEval : Rule → EvalSt → CondOut) (spec : ABSpec)
    (st : EvalSt) (r : ABResult) : HandledOut :=
  match assocLookup spec.rules "OVERRIDE" with
  | some rules => overridesLoopF ruleEval spec.variantValues rules st r
  | none => ⟨st, r, false, none⟩

/-- `evalABTraffic`: the TRAFFIC rule-class lookup and loop. -/
def evalABTrafficF (ruleEval : Rule → EvalSt → CondOut) (spec : ABSpec)
    (st : EvalSt) (r : ABResult) : HandledOut :=
  match assocLookup spec.rules "TRAFFIC" with
  | some rules => trafficLoopF ruleEval rules st r
  | none => ⟨st, r, false, none⟩

/-- `evalABGates`: the GATE rule-class lookup and loop. -/
def evalABGatesF (ruleEval : Rule → EvalSt → CondOut) (spec : ABSpec)
    (st : EvalSt) (r : ABResult) : HandledOut :=
  match assocLookup spec.rules "GATE" with
  | some rules => gatesLoopF ruleEval spec.variantValues rules st r
  | none => ⟨st, r, false, none⟩

/-- `evalABExperiments`: the GROUP rule-class lookup and loop. -/
def evalABExperimentsF (ruleEval : Rule → EvalSt → CondOut) (spec : ABSpec)
    (st : EvalSt) (r : ABResult) : HandledOut :=
  match assocLookup spec.rules "GROUP" with
  | some rules => groupsLoopF ruleEval spec.variantValues rules st r
  | none => ⟨st, r, false, none⟩

/-- The condition evaluation closed over one spec evaluation: shared by all
rule-class loops of one `evalABRules` run. -/
def mkRuleEval (abc : ABCoreM) (recur : RecurT) (user : User) (evalID : String)
    (index : Nat) : Rule → EvalSt → CondOut := fun rule s =>
  evalRuleF (fun cond s2 => evalCondF abc recur user cond evalID index s2) rule evalID s

/-- The body of `evalABRules` before its deferred normalization: the four
rule classes in order (OVERRIDE, TRAFFIC, GATE, GROUP), with the local
`pass` flag. -/
def evalABRulesCoreF (abc : ABCoreM) (recur : RecurT) (user : User)
    (spec : ABSpec) (evalID : String) (index : Nat) (r0 : ABResult)
    (st : EvalSt) : CoreOut :=
  let ruleEval := mkRuleEval abc recur user evalID index
  let ov := evalABOverridesF ruleEval spec st r0
  match ov.err with
  | some e => ⟨ov.st, ov.result, false, some e⟩
  | none =>
  if ov.handled then ⟨ov.st, ov.result, false, none⟩
  else
  let tr := evalABTrafficF ruleEval spec ov.st ov.result
  match tr.err with
  | some e => ⟨tr.st, tr.result, false, some e⟩
  | none =>
  if tr.handled then ⟨tr.st, tr.result, false, none⟩
  else
  let gt := evalABGatesF ruleEval spec tr.st tr.result
  match gt.err with
  | some e => ⟨gt.st, gt.result, false, some e⟩
  | none =>
  let pass := gt.handled
  if spec.typ ≠ abTypExp || !pass || gt.result.variantID ≠ none then
    ⟨gt.st, gt.result, pass, none⟩
  else
    let gr := evalABExperimentsF ruleEval spec gt.st gt.result
    ⟨gr.st, gr.result, pass, gr.err⟩

/-- `evalABRules`: the rule-class pipeline followed by the deferred gate
normalization, which runs on every exit path of the body (deferred
function in the source): a Gate whose variant is still unset becomes
`"pass"`/`"fail"` according to the local `pass` flag. -/
def evalABRulesF (abc : ABCoreM) (recur : RecurT) (user : User) (spec : ABSpec)
    (evalID : String) (index : Nat) (r0 : ABResult) (st : EvalSt) : StepOut :=
  let c := evalABRulesCoreF abc recur user spec evalID index r0 st
  let result :=
    if spec.typ = abTypGate then
      match c.result.variantID with
      | none => { c.result with variantID := some (if c.pass then "pass" else "fail") }
      | some _ => c.result
    else c.result
  ⟨c.st, result, c.err⟩

/-- Output of `evalABSticky`: state, possibly-populated result,
`(handled, stickyDataKey, err)`. -/
structure StickyOut where
  st : EvalSt
  result : ABResult
  handled : Bool
  key : String
  err : Option GoErr

/-- The sticky cache key `fmt.Sprintf("%d-%s", spec.ID, evalID)`. -/
def stickyKey (spec : ABSpec) (evalID : String) : String :=
  toString spec.id ++ "-" ++ evalID

/-- `evalABSticky`: no handler is an error; a read error surfaces; a
non-empty cached value that decodes replays the cached variant (with the
live variant table) and handles the spec; otherwise it is a miss. -/
def evalABStickyF (abc : ABCoreM) (spec : ABSpec) (evalID : String)
    (r : ABResult) (st : EvalSt) : StickyOut :=
  match abc.sticky with
  | none => ⟨st, r, false, "", some .abWithoutSticky⟩
  | some cfg =>
      let key := stickyKey spec evalID
      match cfg.getErr key with
      | some e => ⟨st, r, false, key, some e⟩
      | none =>
          let cacheResult := (assocLookup st.cache key).getD ""
          if cacheResult ≠ "" then
            match abc.world.decodeCache cacheResult with
            | some cacheV =>
                let r :=
                  { r with
                    id := spec.id
                    key := spec.key
                    typ := spec.typ
                    disableImpress := spec.disableImpress }
                let r :=
                  match cacheV with
                  | some v =>
                      { r with
                        variantID := some v
                        variantParamValue := assocLookup (spec.variantValues.getD []) v }
                  | none => r
                ⟨st, r, true, key, none⟩
            | none => ⟨st, r, false, key, none⟩
          else ⟨st, r, false, key, none⟩

/-- Hex digit character (lower case). -/
def hexChar (n : Nat) : Char :=
  if n < 10 then Char.ofNat (48 + n) else Char.ofNat (87 + n)

/-- `encoding/json` string escaping (quotes, backslash, control and HTML
characters). -/
def jsonEscapeChar (c : Char) : List Char :=
  if c = '"' then ['\\', '"']
  else if c = '\\' then ['\\', '\\']
  else if c = '\n' then ['\\', 'n']
  else if c = '\r' then ['\\', 'r']
  else if c = '\t' then ['\\', 't']
  else if c.toNat < 32 ∨ c = '<' ∨ c = '>' ∨ c = '&' then
    ['\\', 'u', '0', '0', hexChar (c.toNat / 16), hexChar (c.toNat % 16)]
  else [c]

/-- JSON string literal for `s`. -/
def jsonQuote (s : String) : String :=
  "\"" ++ ⟨s.data.flatMap jsonEscapeChar⟩ ++ "\""

/-- `json.Marshal(abResultCache{VariantID: &v})`: the cached sticky value. -/
def cacheEncode (v : String) : String := "\x7b\"v\":" ++ jsonQuote v ++ "\x7d"

/-- The seeded result of step 5 of the evaluator: id, key, type and
disable-impress copied from the spec. -/
def seedResult (spec : ABSpec) : ABResult :=
  { id := spec.id, key := spec.key, typ := spec.typ,
    disableImpress := spec.disableImpress }

/-- The deferred sticky writer of `evalAB`: iff evaluation finished without
error and chose a non-null variant, invoke `SetStickyResult` with the
sticky key and the JSON cache value; the write error (if any) replaces the
nil error.  Every invocation is recorded in the write log; the handler's
stored data is updated on success. -/
def applyStickyWriter (abc : ABCoreM) (key : String) (o : StepOut) : StepOut :=
  if o.err = none then
    match o.result.variantID with
    | some v =>
        let value := cacheEncode v
        match abc.sticky with
        | some cfg =>
            let st := { o.st with writes := o.st.writes ++ [(key, value)] }
            match cfg.setErr key value with
            | some e => ⟨st, o.result, some e⟩
            | none => ⟨{ st with cache := assocInsert st.cache key value }, o.result, none⟩
        | none => o
    | none => o
  else o

/-- One frame of `evalAB` (`ab.go`), parameterised by the recursive
re-entry used for `gate_pass`/`gate_fail` conditions: depth guard,
enabled check, subject resolution, sticky short-circuit, seeding, rule
evaluation, and the deferred sticky writer. -/
def evalStep (abc : ABCoreM) (recur : RecurT) (st : EvalSt) (user : User)
    (spec : ABSpec) (index : Nat) : StepOut :=
  if maxRecursionDepth ≤ index then ⟨st, {}, none⟩
  else
    let index := index + 1
    if !spec.enabled then ⟨st, {}, none⟩
    else
      let evalID := getEvalID user spec
      if evalID = "" then ⟨st, {}, none⟩
      else if spec.sticky then
        let so := evalABStickyF abc spec evalID {} st
        if so.handled || so.err ≠ none then ⟨so.st, so.result, so.err⟩
        else
          let o := evalABRulesF abc recur user spec evalID index (seedResult spec) so.st
          applyStickyWriter abc so.key o
      else
        evalABRulesF abc recur user spec evalID index (seedResult spec) st

/-- The fuel-indexed tower closing the recursion of `evalAB` through
dependent-spec conditions.  Each frame consumes one unit of fuel and calls
back in with a strictly larger depth, so with fuel strictly greater than
`maxRecursionDepth` the fuel-exhaustion branch is unreachable. -/
def evalABFuel (abc : ABCoreM) : Nat → RecurT
  | 0 => fun st _ _ _ => ⟨st, {}, none⟩
  | fuel + 1 => fun st user spec index => evalStep abc (evalABFuel abc fuel) st user spec index

/-- `evalAB` (`ab.go`): the core evaluation of a single spec.  Fuel 11
suffices: from depth `index` the recursion re-enters at `index + 1` and the
depth guard stops at `maxRecursionDepth = 10`, so at most 11 frames run. -/
def evalAB (abc : ABCoreM) (st : EvalSt) (user : User) (spec : ABSpec)
    (index : Nat) : StepOut :=
  evalABFuel abc 11 st user spec index

/-! ## Core and client APIs (`ab.go` `Evaluate`, `client.go`) -/

/-- `ABCore.Evaluate`: look up the spec by key (empty result when the
storage is nil or the key is missing), optionally validate the expected
type, then evaluate at depth 0. -/
def coreEvaluate (abc : ABCoreM) (st : EvalSt) (user : User) (key : String)
    (typ : Option Int) : StepOut :=
  match getABSpec abc key with
  | none => ⟨st, {}, none⟩
  | some spec =>
      match typ with
      | some t => if spec.typ ≠ t then ⟨st, {}, none⟩ else evalAB abc st user spec 0
      | none => evalAB abc st user spec 0

/-- `client.validateUser`: both ids empty is invalid. -/
def validateUser (user : User) : Option GoErr :=
  if user.anonID = "" ∧ user.loginID = "" then some .emptyUserIDs else none

/-- `client.CheckFeatureGate`: uninitialized core and missing snapshot are
errors; then `Evaluate` with the Gate type filter; an evaluation error is
returned with `false`; otherwise the result's `CheckFeatureGate`.
(The impression side effect does not affect the returned value and is not
modelled here.) -/
def clientCheckFeatureGate (core : Option ABCoreM) (st : EvalSt) (user : User)
    (key : String) : Bool × Option GoErr :=
  match core with
  | none => (false, some .abNotInited)
  | some abc =>
      if abc.storage.isNone then (false, some .abNotReady)
      else
        match validateUser user with
        | some e => (false, some e)
        | none =>
            let o := coreEvaluate abc st user key (some abTypGate)
            match o.err with
            | some e => (false, some e)
            | none => (o.result.checkFeatureGate, none)

/-! ## Metadata loader and snapshot swap (`ab.go` `loadRemoteMeta`) -/

/-- The loader envelope `ABDataResp`. -/
structure ABDataResp where
  update : Bool := false
  updateTime : Int := 0
  abEnv : ABEnvM := {}
  abSpecs : List ABSpec := []

/-- Parse the variant payloads of one spec into its variant-value table
(`loadRemoteMeta`'s inner loop): every non-empty payload must JSON-decode
into a map; on success payloads are discarded. -/
def buildSpec (w : World) (spec : ABSpec) : Option ABSpec :=
  (go spec.variantPayloads spec.variantValues).map fun vv =>
    { spec with variantValues := vv, variantPayloads := [] }
where
  go : List (String × List Nat) → Option (List (String × VarMap)) →
      Option (Option (List (String × VarMap)))
    | [], vv => some vv
    | (vid, payload) :: rest, vv =>
        if payload.length > 0 then
          match w.decodePayload payload with
          | none => none
          | some value => go rest (some (assocInsert (vv.getD []) vid value))
        else go rest vv

/-- Build the spec table of a new snapshot in iteration order, aborting on
the first payload that fails to decode. -/
def buildSpecs (w : World) (specs : List ABSpec) : Option (List (String × ABSpec)) :=
  go specs []
where
  go : List ABSpec → List (String × ABSpec) → Option (List (String × ABSpec))
    | [], acc => some acc
    | spec :: rest, acc =>
        match buildSpec w spec with
        | none => none
        | some spec2 => go rest (assocInsert acc spec2.key spec2)

/-- `loadRemoteMeta` (`ab.go`): abort when no loader is configured or the
fetch fails; decide whether an update is needed (`update` flag, missing
snapshot, or changed `updateTime`); build the new snapshot, aborting —
and leaving the installed snapshot untouched — if any non-empty variant
payload fails to JSON-decode; otherwise publish the new snapshot. -/
def loadRemoteMeta (w : World) (hasLoader : Bool)
    (loadResult : Option ABDataResp) (cur : Option StorageM) : Option StorageM :=
  if !hasLoader then cur
  else
    match loadResult with
    | none => cur
    | some abData =>
        let needupdate :=
          abData.update ||
            (match cur with
             | some s => decide (s.updateTime ≠ abData.updateTime)
             | none => true)
        if !needupdate then cur
        else
          match buildSpecs w abData.abSpecs with
          | none => cur
          | some specs =>
              some { updateTime := abData.updateTime, abEnv := abData.abEnv, specs := specs }

/-! ## Event pipeline entry (`client.go` `Track`, `types.go`, constants) -/

/-- `maxEventChanSize`: the bounded input channel holds 500 serialized
events. -/
def maxEventChanSize : Nat := 500

/-- `Event` (`types.go`), with the fields `Track` inspects. -/
structure EventM where
  anonID : String := ""
  loginID : String := ""
  time : Int := 0
  traceID : String := ""
  event : String := ""
  properties : List (String × GoVal) := []

/-- `Event.Normalize`: empty ids and empty event names are errors; a
missing trace id and a zero time are filled from the world. -/
def eventNormalize (w : World) (e : EventM) : Except GoErr EventM :=
  if e.anonID = "" ∧ e.loginID = "" then .error .emptyUserIDs
  else if e.event = "" then .error .eventNameEmpty
  else
    let e := if e.traceID = "" then { e with traceID := w.newTraceID } else e
    let e := if e.time = 0 then { e with time := w.nowMs } else e
    .ok e

/-- The input channel of the event pipeline: its buffered contents and
whether `Close` has closed it. -/
structure ChanState where
  buf : List EventM := []
  closed : Bool := false

/-- The observable outcome of one `Track` call: a return value (error and
the channel afterwards), or blocking on a full channel. -/
inductive TrackOutcome where
  | ret : Option GoErr → ChanState → TrackOutcome
  | blocked : TrackOutcome

/-- `client.Track` (`client.go`): validate ids, normalize, marshal, then a
plain channel send — a send on a closed channel panics and is recovered
into an error; a send on a full open channel blocks the caller. -/
def clientTrack (w : World) (ch : ChanState) (e : EventM) : TrackOutcome :=
  if e.anonID = "" ∧ e.loginID = "" then .ret (some .emptyUserIDs) ch
  else
    match eventNormalize w e with
    | .error err => .ret (some err) ch
    | .ok e2 =>
        if ch.closed then .ret (some .closedClient) ch
        else if ch.buf.length < maxEventChanSize then
          .ret none { ch with buf := ch.buf ++ [e2] }
        else .blocked

/-! ## Theorems -/

/-- `evalABFuel` at positive fuel is one `evalStep` frame. -/
theorem evalABFuel_succ (abc : ABCoreM) (fuel : Nat) (st : EvalSt) (user : User)
    (spec : ABSpec) (index : Nat) :
    evalABFuel abc (fuel + 1) st user spec index =
      evalStep abc (evalABFuel abc fuel) st user spec index := rfl

/-- C5.  Spec evaluation is total (every model function is a total Lean
definition, structurally recursive on the fuel that bounds the
`gate_pass`/`gate_fail` re-entries at `index + 1`), and any call with depth
at least `maxRecursionDepth = 10` returns the empty result with no error
and no state change. -/
theorem evalAB_depth_guard (abc : ABCoreM) (st : EvalSt) (user : User)
    (spec : ABSpec) (index : Nat) (h : maxRecursionDepth ≤ index) :
    evalAB abc st user spec index = ⟨st, {}, none⟩ := by
  show evalStep abc (evalABFuel abc 10) st user spec index = ⟨st, {}, none⟩
  unfold evalStep
  simp [h]

/-- Witness for C5: a gate whose GATE rule recursively re-enters itself
(`gate_pass` on its own key) still returns the empty result at depth 10. -/
def cycSpec : ABSpec :=
  { id := 3
    key := "cyc"
    typ := 1
    subjectID := "login_id"
    enabled := true
    rules := [("GATE", [{ rollout := 100, conditions := [{ fieldClass := "default", field := "cyc", opt := "gate_pass" }] }])] }

/-- A world with inert collaborators, used by concrete examples. -/
def exWorld : World :=
  { decodePayload := fun _ => none
    decodeCache := fun _ => none
    parseRFC3339 := fun _ => none
    nowYear := 2026
    nowMs := 1760000000000
    newTraceID := "trace" }

/-- A core whose snapshot holds only the cyclic gate. -/
def cycCore : ABCoreM := { world := exWorld, storage := some { specs := [("cyc", cycSpec)] } }

theorem evalAB_depth_guard_witness :
    maxRecursionDepth ≤ 10 ∧
      evalAB cycCore {} { loginID := "x" } cycSpec 10 = ⟨{}, {}, none⟩ :=
  ⟨by decide, evalAB_depth_guard cycCore {} { loginID := "x" } cycSpec 10 (by decide)⟩

/-! ### C8: the hash primitive -/

/-- The claim's reading of `hashU64`: the SHA-256 digest of the byte
sequence `id`, a single `'.'` byte (46), `salt`, with the first 8 digest
bytes interpreted as a big-endian unsigned 64-bit integer. -/
def hashU64ClaimSide (id salt : String) : Nat :=
  ((sha256 (strBytes id ++ [46] ++ strBytes salt)).take 8).foldl
    (fun acc b => acc * 256 + b) 0

/-- UTF-8 encoding distributes over string append. -/
theorem strBytes_append (a b : String) : strBytes (a ++ b) = strBytes a ++ strBytes b := by
  simp [strBytes, String.data_append]

/-- C8. `hashUint64(id, salt)` is exactly the SHA-256 digest of
`id ⧺ "." ⧺ salt` with the first 8 bytes read big-endian. -/
theorem hashUint64_eq_claim (id salt : String) :
    hashUint64 id salt = hashU64ClaimSide id salt := by
  have hdot : strBytes "." = [46] := by decide
  simp [hashUint64, hashU64ClaimSide, beUint64, goHash, strBytes_append, hdot]

/-- SHA-256 ground truth: the NIST test vector for `"abc"`. -/
theorem sha256_abc_vector :
    sha256 (strBytes "abc") =
      [0xba, 0x78, 0x16, 0xbf, 0x8f, 0x01, 0xcf, 0xea, 0x41, 0x41, 0x40, 0xde,
       0x5d, 0xae, 0x22, 0x23, 0xb0, 0x03, 0x61, 0xa3, 0x96, 0x17, 0x7a, 0x9c,
       0xb4, 0x10, 0xff, 0x61, 0xf2, 0x00, 0x15, 0xad] := by decide

/-! ### C4: rollout gating in `evalRule` -/

/-- C4.  For any rule with rollout in [0, 100] and any subject identifier:
rollout 0 short-circuits to a failure with the state untouched (before any
condition or hash); rollout 100 with all conditions passing always passes
regardless of the hash; and for intermediate rollouts the rule passes
exactly when all conditions pass and
`hashU64(evalID, rule.salt) % 10000 < uint64(rollout * 100)`. -/
theorem evalRule_rollout_spec (condEval : Condition → EvalSt → CondOut)
    (rule : Rule) (evalID : String) (st : EvalSt)
    (_h0 : 0 ≤ rule.rollout) (_h100 : rule.rollout ≤ 100) :
    (rule.rollout = 0 → evalRuleF condEval rule evalID st = ⟨st, false, none⟩) ∧
    (rule.rollout = 100 → ∀ st2, condsLoopF condEval rule.conditions st = ⟨st2, true, none⟩ →
      evalRuleF condEval rule evalID st = ⟨st2, true, none⟩) ∧
    (0 < rule.rollout → rule.rollout < 100 →
      ((evalRuleF condEval rule evalID st).pass = true ↔
        ((condsLoopF condEval rule.conditions st).pass = true ∧
          (condsLoopF condEval rule.conditions st).err = none ∧
          hashUint64 evalID rule.salt % 10000 < rolloutThreshold rule.rollout))) := by
  refine ⟨fun hz => ?_, fun hh st2 hc => ?_, fun hlt hgt => ?_⟩
  · simp [evalRuleF, hz]
  · simp [evalRuleF, hh, hc]
  · have hz : rule.rollout ≠ 0 := ne_of_gt hlt
    have hh : rule.rollout ≠ 100 := ne_of_lt hgt
    simp only [evalRuleF, if_neg hz]
    rcases hc : condsLoopF condEval rule.conditions st with ⟨st2, pass, err⟩
    cases err with
    | some e => simp
    | none =>
        cases pass with
        | false => simp
        | true => simp [if_neg hh]

set_option maxRecDepth 4000 in
/-- Witness for C4 at a concrete half-rollout rule with vacuous
conditions: the intermediate-rollout bucket equivalence at rollout 50. -/
theorem evalRule_rollout_spec_witness :
    (0 : ℚ) < 50 ∧ (50 : ℚ) < 100 ∧
      ((evalRuleF (fun _ s => ⟨s, true, none⟩) { rollout := 50, salt := "s" } "0" {}).pass = true ↔
        ((condsLoopF (fun _ s => ⟨s, true, none⟩)
            (Rule.conditions { rollout := 50, salt := "s" }) {}).pass = true ∧
          (condsLoopF (fun _ s => ⟨s, true, none⟩)
            (Rule.conditions { rollout := 50, salt := "s" }) {}).err = none ∧
          hashUint64 "0" "s" % 10000 < rolloutThreshold 50)) := by
  refine ⟨by norm_num, by norm_num, ?_⟩
  exact (evalRule_rollout_spec (fun _ s => ⟨s, true, none⟩)
    { rollout := 50, salt := "s" } "0" {} (by norm_num) (by norm_num)).2.2
    (by norm_num) (by norm_num)

/-! ### C9: `Track` on a full input channel -/

/-- A valid concrete event. -/
def exEvent : EventM := { loginID := "u", time := 1, traceID := "t", event := "e" }

/-- A full, open input channel (capacity `maxEventChanSize = 500`). -/
def fullChan : ChanState := { buf := List.replicate maxEventChanSize exEvent }

/-- Counterexample to C9: with the input channel full and open, a valid
`Track` call blocks on the channel send — it does not return
`ErrTooManyRequests` (no return happens at all; `TrackOutcome.blocked` is
distinct from every `TrackOutcome.ret`). -/
theorem clientTrack_full_counterexample :
    fullChan.closed = false ∧
      maxEventChanSize ≤ fullChan.buf.length ∧
      clientTrack exWorld fullChan exEvent = TrackOutcome.blocked := by
  have hlen : fullChan.buf.length = maxEventChanSize := List.length_replicate _ _
  refine ⟨rfl, le_of_eq hlen.symm, ?_⟩
  simp only [clientTrack, eventNormalize, exEvent, hlen]
  norm_num
  simp [fullChan]

/-- C9, amended.  `ErrTooManyRequests` is declared but never returned by
`Track`: a valid `Track` call on a full, open channel blocks the caller
until the batching loop drains a message (and a send after `Close` is
recovered into an error instead). -/
theorem clientTrack_full_blocks (w : World) (ch : ChanState) (e : EventM)
    (hopen : ch.closed = false) (hfull : maxEventChanSize ≤ ch.buf.length)
    (hids : ¬(e.anonID = "" ∧ e.loginID = "")) (hname : e.event ≠ "") :
    clientTrack w ch e = TrackOutcome.blocked := by
  simp only [clientTrack, if_neg hids]
  have hn : ∃ e2, eventNormalize w e = .ok e2 := by
    simp only [eventNormalize, if_neg hids, if_neg hname]
    exact ⟨_, rfl⟩
  obtain ⟨e2, hn⟩ := hn
  rw [hn]
  simp [hopen, Nat.not_lt.mpr hfull]

/-- Witness for the amended C9 at the concrete full channel. -/
theorem clientTrack_full_blocks_witness :
    fullChan.closed = false ∧ maxEventChanSize ≤ fullChan.buf.length ∧
      ¬(exEvent.anonID = "" ∧ exEvent.loginID = "") ∧ exEvent.event ≠ "" ∧
      clientTrack exWorld fullChan exEvent = TrackOutcome.blocked :=
  ⟨rfl, by simp [fullChan], by decide, by decide,
    clientTrack_full_blocks exWorld fullChan exEvent rfl (by simp [fullChan])
      (by decide) (by decide)⟩

/-! ### C6: snapshot publication and payload decoding -/

/-- If the payload loop of `buildSpec` returns successfully, every
non-empty payload it walked decoded successfully. -/
theorem buildSpecGo_decodes (w : World) :
    ∀ (ps : List (String × List Nat)) (vv out : Option (List (String × VarMap))),
      buildSpec.go w ps vv = some out →
      ∀ p ∈ ps, 0 < p.2.length → w.decodePayload p.2 ≠ none := by
  intro ps
  induction ps with
  | nil => intro vv out _ p hp; simp at hp
  | cons hd tl ih =>
      obtain ⟨vid, payload⟩ := hd
      intro vv out h p hp hlen
      by_cases hl : payload.length > 0
      · simp only [buildSpec.go, if_pos hl] at h
        rcases hdc : w.decodePayload payload with _ | value
        · rw [hdc] at h; simp at h
        · rw [hdc] at h
          rcases List.mem_cons.mp hp with hp | hp
          · rw [hp, hdc]; simp
          · exact ih _ _ h p hp hlen
      · simp only [buildSpec.go, if_neg hl] at h
        rcases List.mem_cons.mp hp with hp | hp
        · rw [hp] at hlen; exact absurd hlen hl
        · exact ih _ _ h p hp hlen

/-- If `buildSpec` succeeds, every non-empty variant payload of the spec
decoded successfully. -/
theorem buildSpec_decodes (w : World) (spec out : ABSpec)
    (h : buildSpec w spec = some out) :
    ∀ p ∈ spec.variantPayloads, 0 < p.2.length → w.decodePayload p.2 ≠ none := by
  unfold buildSpec at h
  rcases hg : buildSpec.go w spec.variantPayloads spec.variantValues with _ | vv
  · rw [hg] at h; simp at h
  · exact buildSpecGo_decodes w _ _ _ hg

/-- If the snapshot build loop succeeds, `buildSpec` succeeded on every
spec it walked. -/
theorem buildSpecsGo_built (w : World) :
    ∀ (specs : List ABSpec) (acc out : List (String × ABSpec)),
      buildSpecs.go w specs acc = some out →
      ∀ spec ∈ specs, ∃ o, buildSpec w spec = some o := by
  intro specs
  induction specs with
  | nil => intro acc out _ spec hs; simp at hs
  | cons hd tl ih =>
      intro acc out h spec hs
      rcases hb : buildSpec w hd with _ | spec2
      · simp only [buildSpecs.go, hb] at h
        simp at h
      · simp only [buildSpecs.go, hb] at h
        rcases List.mem_cons.mp hs with hs | hs
        · exact ⟨spec2, hs ▸ hb⟩
        · exact ih _ _ h spec hs

/-- C6.  A metadata load in which some non-empty variant payload fails to
JSON-decode leaves the installed snapshot unchanged, and a load that does
change the installed snapshot decoded every non-empty variant payload of
every spec. -/
theorem loadRemoteMeta_payload_abort (w : World) (hasLoader : Bool)
    (abData : ABDataResp) (cur : Option StorageM) :
    ((∃ spec ∈ abData.abSpecs, ∃ p ∈ spec.variantPayloads,
        0 < p.2.length ∧ w.decodePayload p.2 = none) →
      loadRemoteMeta w hasLoader (some abData) cur = cur) ∧
    (loadRemoteMeta w hasLoader (some abData) cur ≠ cur →
      ∀ spec ∈ abData.abSpecs, ∀ p ∈ spec.variantPayloads,
        0 < p.2.length → w.decodePayload p.2 ≠ none) := by
  constructor
  · rintro ⟨spec, hspec, p, hp, hlen, hfail⟩
    unfold loadRemoteMeta
    cases hasLoader with
    | false => simp
    | true =>
        simp only [Bool.not_true, Bool.false_eq_true, if_false]
        rcases hb : buildSpecs w abData.abSpecs with _ | specs
        · cases hnu : (abData.update ||
            (match cur with
             | some s => decide (s.updateTime ≠ abData.updateTime)
             | none => true)) <;> simp [hnu, hb]
        · exfalso
          obtain ⟨o, ho⟩ := buildSpecsGo_built w _ _ _ hb spec hspec
          exact buildSpec_decodes w spec o ho p hp hlen hfail
  · intro hchanged spec hspec p hp hlen hfail
    apply hchanged
    unfold loadRemoteMeta
    cases hasLoader with
    | false => simp
    | true =>
        simp only [Bool.not_true, Bool.false_eq_true, if_false]
        rcases hb : buildSpecs w abData.abSpecs with _ | specs
        · cases hnu : (abData.update ||
            (match cur with
             | some s => decide (s.updateTime ≠ abData.updateTime)
             | none => true)) <;> simp [hnu, hb]
        · exfalso
          obtain ⟨o, ho⟩ := buildSpecsGo_built w _ _ _ hb spec hspec
          exact buildSpec_decodes w spec o ho p hp hlen hfail

/-- Witness for C6: a one-spec envelope whose only payload fails to decode
leaves a pre-installed snapshot in place. -/
def badPayloadSpec : ABSpec :=
  { id := 9, key := "bad", typ := 2, enabled := true, variantPayloads := [("v1", [1, 2, 3])] }

/-- An envelope carrying the undecodable spec. -/
def badEnvelope : ABDataResp := { update := true, updateTime := 200, abSpecs := [badPayloadSpec] }

/-- The previously installed snapshot. -/
def prevStorage : Option StorageM := some { updateTime := 100 }

theorem loadRemoteMeta_payload_abort_witness :
    loadRemoteMeta exWorld true (some badEnvelope) prevStorage = prevStorage :=
  (loadRemoteMeta_payload_abort exWorld true badEnvelope prevStorage).1
    ⟨badPayloadSpec, by simp [badEnvelope], ("v1", [1, 2, 3]), by simp [badPayloadSpec],
      by norm_num, rfl⟩

/-! ### Rule-loop invariants (seeded fields and gate variant ids) -/

/-- The seeded header fields (id, key, type, disable-impress) of two
results agree. -/
def sameSeed (a b : ABResult) : Prop :=
  a.id = b.id ∧ a.key = b.key ∧ a.typ = b.typ ∧ a.disableImpress = b.disableImpress

theorem sameSeed_refl (a : ABResult) : sameSeed a a := ⟨rfl, rfl, rfl, rfl⟩

theorem sameSeed_trans {a b c : ABResult} (h1 : sameSeed a b) (h2 : sameSeed b c) :
    sameSeed a c :=
  ⟨h1.1.trans h2.1, h1.2.1.trans h2.2.1, h1.2.2.1.trans h2.2.2.1, h1.2.2.2.trans h2.2.2.2⟩

/-- The OVERRIDE loop only touches the variant fields of the result. -/
theorem overridesLoopF_sameSeed (ruleEval : Rule → EvalSt → CondOut)
    (vv : Option (List (String × VarMap))) :
    ∀ (rules : List Rule) (st : EvalSt) (r : ABResult),
      sameSeed (overridesLoopF ruleEval vv rules st r).result r := by
  intro rules
  induction rules with
  | nil => intro st r; exact sameSeed_refl r
  | cons rule rest ih =>
      intro st r
      simp only [overridesLoopF]
      rcases ruleEval rule st with ⟨st2, pass, err⟩
      cases err with
      | some e => exact sameSeed_refl r
      | none =>
          cases pass with
          | false => exact ih st2 r
          | true =>
              cases rule.override with
              | none => exact ih st2 r
              | some ov =>
                  cases vv with
                  | none => exact ⟨rfl, rfl, rfl, rfl⟩
                  | some table => exact ⟨rfl, rfl, rfl, rfl⟩

/-- The TRAFFIC loop only touches the variant fields of the result. -/
theorem trafficLoopF_sameSeed (ruleEval : Rule → EvalSt → CondOut) :
    ∀ (rules : List Rule) (st : EvalSt) (r : ABResult),
      sameSeed (trafficLoopF ruleEval rules st r).result r := by
  intro rules
  induction rules with
  | nil => intro st r; exact sameSeed_refl r
  | cons rule rest ih =>
      intro st r
      simp only [trafficLoopF]
      rcases ruleEval rule st with ⟨st2, pass, err⟩
      cases err with
      | some e => exact sameSeed_refl r
      | none =>
          cases pass with
          | true => exact ih st2 r
          | false =>
              cases rule.override with
              | none => exact sameSeed_refl r
              | some ov => exact ⟨rfl, rfl, rfl, rfl⟩

/-- The GATE loop only touches the variant fields of the result. -/
theorem gatesLoopF_sameSeed (ruleEval : Rule → EvalSt → CondOut)
    (vv : Option (List (String × VarMap))) :
    ∀ (rules : List Rule) (st : EvalSt) (r : ABResult),
      sameSeed (gatesLoopF ruleEval vv rules st r).result r := by
  intro rules
  induction rules with
  | nil => intro st r; exact sameSeed_refl r
  | cons rule rest ih =>
      intro st r
      simp only [gatesLoopF]
      rcases ruleEval rule st with ⟨st2, pass, err⟩
      cases err with
      | some e => exact sameSeed_refl r
      | none =>
          cases pass with
          | false => exact ih st2 r
          | true =>
              cases rule.override with
              | none => exact sameSeed_refl r
              | some ov => exact ⟨rfl, rfl, rfl, rfl⟩

/-- The GROUP loop only touches the variant fields of the result. -/
theorem groupsLoopF_sameSeed (ruleEval : Rule → EvalSt → CondOut)
    (vv : Option (List (String × VarMap))) :
    ∀ (rules : List Rule) (st : EvalSt) (r : ABResult),
      sameSeed (groupsLoopF ruleEval vv rules st r).result r := by
  intro rules
  induction rules with
  | nil => intro st r; exact sameSeed_refl r
  | cons rule rest ih =>
      intro st r
      simp only [groupsLoopF]
      rcases ruleEval rule st with ⟨st2, pass, err⟩
      cases err with
      | some e => exact sameSeed_refl r
      | none =>
          cases pass with
          | false => exact ih st2 r
          | true =>
              cases rule.override with
              | none => exact sameSeed_refl r
              | some ov => exact ⟨rfl, rfl, rfl, rfl⟩

/-- Stage form of the seed invariant, for each rule class. -/
theorem evalABOverridesF_sameSeed (ruleEval : Rule → EvalSt → CondOut)
    (spec : ABSpec) (st : EvalSt) (r : ABResult) :
    sameSeed (evalABOverridesF ruleEval spec st r).result r := by
  unfold evalABOverridesF
  cases assocLookup spec.rules "OVERRIDE" with
  | none => exact sameSeed_refl r
  | some rules => exact overridesLoopF_sameSeed ruleEval spec.variantValues rules st r

/-- Seed invariant of the TRAFFIC stage. -/
theorem evalABTrafficF_sameSeed (ruleEval : Rule → EvalSt → CondOut)
    (spec : ABSpec) (st : EvalSt) (r : ABResult) :
    sameSeed (evalABTrafficF ruleEval spec st r).result r := by
  unfold evalABTrafficF
  cases assocLookup spec.rules "TRAFFIC" with
  | none => exact sameSeed_refl r
  | some rules => exact trafficLoopF_sameSeed ruleEval rules st r

/-- Seed invariant of the GATE stage. -/
theorem evalABGatesF_sameSeed (ruleEval : Rule → EvalSt → CondOut)
    (spec : ABSpec) (st : EvalSt) (r : ABResult) :
    sameSeed (evalABGatesF ruleEval spec st r).result r := by
  unfold evalABGatesF
  cases assocLookup spec.rules "GATE" with
  | none => exact sameSeed_refl r
  | some rules => exact gatesLoopF_sameSeed ruleEval spec.variantValues rules st r

/-- Seed invariant of the GROUP stage. -/
theorem evalABExperimentsF_sameSeed (ruleEval : Rule → EvalSt → CondOut)
    (spec : ABSpec) (st : EvalSt) (r : ABResult) :
    sameSeed (evalABExperimentsF ruleEval spec st r).result r := by
  unfold evalABExperimentsF
  cases assocLookup spec.rules "GROUP" with
  | none => exact sameSeed_refl r
  | some rules => exact groupsLoopF_sameSeed ruleEval spec.variantValues rules st r

/-- The rule-class pipeline only touches the variant fields of the seeded
result. -/
theorem evalABRulesCoreF_sameSeed (abc : ABCoreM) (recur : RecurT) (user : User)
    (spec : ABSpec) (evalID : String) (index : Nat) (r0 : ABResult) (st : EvalSt) :
    sameSeed (evalABRulesCoreF abc recur user spec evalID index r0 st).result r0 := by
  unfold evalABRulesCoreF
  dsimp only
  set ruleEval := mkRuleEval abc recur user evalID index with hre
  have hov := evalABOverridesF_sameSeed ruleEval spec st r0
  set ov := evalABOverridesF ruleEval spec st r0 with hovdef
  clear_value ov
  obtain ⟨st1, r1, handled1, err1⟩ := ov
  simp only at hov ⊢
  cases err1 with
  | some e => exact hov
  | none =>
      cases handled1 with
      | true => exact hov
      | false =>
          simp only [Bool.false_eq_true, if_false]
          have htr := evalABTrafficF_sameSeed ruleEval spec st1 r1
          set tr := evalABTrafficF ruleEval spec st1 r1 with htrdef
          clear_value tr
          obtain ⟨st2, r2, handled2, err2⟩ := tr
          simp only at htr ⊢
          cases err2 with
          | some e => exact sameSeed_trans htr hov
          | none =>
              cases handled2 with
              | true => exact sameSeed_trans htr hov
              | false =>
                  simp only [Bool.false_eq_true, if_false]
                  have hgt := evalABGatesF_sameSeed ruleEval spec st2 r2
                  set gt := evalABGatesF ruleEval spec st2 r2 with hgtdef
                  clear_value gt
                  obtain ⟨st3, r3, handled3, err3⟩ := gt
                  simp only at hgt ⊢
                  have hseed3 : sameSeed r3 r0 := sameSeed_trans (sameSeed_trans hgt htr) hov
                  cases err3 with
                  | some e => exact hseed3
                  | none =>
                      by_cases hc :
                        (decide (spec.typ ≠ abTypExp) || !handled3 ||
                          decide (r3.variantID ≠ none)) = true
                      · rw [if_pos hc]; exact hseed3
                      · rw [if_neg hc]
                        exact sameSeed_trans
                          (evalABExperimentsF_sameSeed ruleEval spec st3 r3) hseed3

/-- `evalABRules` (pipeline plus gate normalization) only touches the
variant fields of the seeded result. -/
theorem evalABRulesF_sameSeed (abc : ABCoreM) (recur : RecurT) (user : User)
    (spec : ABSpec) (evalID : String) (index : Nat) (r0 : ABResult) (st : EvalSt) :
    sameSeed (evalABRulesF abc recur user spec evalID index r0 st).result r0 := by
  unfold evalABRulesF
  dsimp only
  have hc := evalABRulesCoreF_sameSeed abc recur user spec evalID index r0 st
  set c := evalABRulesCoreF abc recur user spec evalID index r0 st with hcdef
  clear_value c
  obtain ⟨st1, r1, pass1, err1⟩ := c
  simp only at hc ⊢
  by_cases ht : spec.typ = abTypGate
  · simp only [ht, if_pos]
    cases r1.variantID with
    | none => exact hc
    | some v => exact hc
  · simp only [if_neg ht]
    exact hc

/-! ### Gate variant-id tracking -/

/-- A variant id a Gate may carry before normalization: unset, pass or
fail. -/
def vidOK (o : Option String) : Prop := o = none ∨ o = some "pass" ∨ o = some "fail"

/-- All overrides of a rule list are `"pass"` or `"fail"`. -/
def rulesOvOK (rules : List Rule) : Prop :=
  ∀ rule ∈ rules, ∀ v, rule.override = some v → v = "pass" ∨ v = "fail"

/-- All overrides in all rule classes of a spec are `"pass"` or `"fail"`. -/
def specOvOK (spec : ABSpec) : Prop := ∀ pr ∈ spec.rules, rulesOvOK pr.2

/-- A successful association-list lookup is a membership. -/
theorem assocLookup_mem {α : Type} :
    ∀ (l : List (String × α)) (k : String) (v : α),
      assocLookup l k = some v → (k, v) ∈ l := by
  intro l
  induction l with
  | nil => intro k v h; simp [assocLookup] at h
  | cons hd tl ih =>
      intro k v h
      by_cases hk : hd.1 = k
      · simp only [assocLookup, if_pos hk] at h
        cases h
        subst hk
        exact List.mem_cons_self hd tl
      · simp only [assocLookup, if_neg hk] at h
        exact List.mem_cons_of_mem hd (ih k v h)

/-- The OVERRIDE loop keeps a gate's variant id in the allowed set. -/
theorem overridesLoopF_vidOK (ruleEval : Rule → EvalSt → CondOut)
    (vv : Option (List (String × VarMap))) :
    ∀ (rules : List Rule) (st : EvalSt) (r : ABResult),
      rulesOvOK rules → vidOK r.variantID →
      vidOK (overridesLoopF ruleEval vv rules st r).result.variantID := by
  intro rules
  induction rules with
  | nil => intro st r _ hr; exact hr
  | cons rule rest ih =>
      intro st r hok hr
      have hok' : rulesOvOK rest := fun rl hin => hok rl (List.mem_cons_of_mem rule hin)
      simp only [overridesLoopF]
      rcases ruleEval rule st with ⟨st2, pass, err⟩
      cases err with
      | some e => exact hr
      | none =>
          cases pass with
          | false => exact ih st2 r hok' hr
          | true =>
              cases hov : rule.override with
              | none => exact ih st2 r hok' hr
              | some ov =>
                  have : ov = "pass" ∨ ov = "fail" :=
                    hok rule (List.mem_cons_self rule rest) ov hov
                  cases vv with
                  | none => rcases this with h | h <;> simp [h, vidOK]
                  | some table => rcases this with h | h <;> simp [h, vidOK]

/-- The TRAFFIC loop keeps a gate's variant id in the allowed set. -/
theorem trafficLoopF_vidOK (ruleEval : Rule → EvalSt → CondOut) :
    ∀ (rules : List Rule) (st : EvalSt) (r : ABResult),
      rulesOvOK rules → vidOK r.variantID →
      vidOK (trafficLoopF ruleEval rules st r).result.variantID := by
  intro rules
  induction rules with
  | nil => intro st r _ hr; exact hr
  | cons rule rest ih =>
      intro st r hok hr
      have hok' : rulesOvOK rest := fun rl hin => hok rl (List.mem_cons_of_mem rule hin)
      simp only [trafficLoopF]
      rcases ruleEval rule st with ⟨st2, pass, err⟩
      cases err with
      | some e => exact hr
      | none =>
          cases pass with
          | true => exact ih st2 r hok' hr
          | false =>
              cases hov : rule.override with
              | none => exact hr
              | some ov =>
                  have : ov = "pass" ∨ ov = "fail" :=
                    hok rule (List.mem_cons_self rule rest) ov hov
                  rcases this with h | h <;> simp [h, vidOK]

/-- The GATE loop keeps a gate's variant id in the allowed set. -/
theorem gatesLoopF_vidOK (ruleEval : Rule → EvalSt → CondOut)
    (vv : Option (List (String × VarMap))) :
    ∀ (rules : List Rule) (st : EvalSt) (r : ABResult),
      rulesOvOK rules → vidOK r.variantID →
      vidOK (gatesLoopF ruleEval vv rules st r).result.variantID := by
  intro rules
  induction rules with
  | nil => intro st r _ hr; exact hr
  | cons rule rest ih =>
      intro st r hok hr
      have hok' : rulesOvOK rest := fun rl hin => hok rl (List.mem_cons_of_mem rule hin)
      simp only [gatesLoopF]
      rcases ruleEval rule st with ⟨st2, pass, err⟩
      cases err with
      | some e => exact hr
      | none =>
          cases pass with
          | false => exact ih st2 r hok' hr
          | true =>
              cases hov : rule.override with
              | none => exact hr
              | some ov =>
                  have : ov = "pass" ∨ ov = "fail" :=
                    hok rule (List.mem_cons_self rule rest) ov hov
                  rcases this with h | h <;> simp [h, vidOK]

/-- The GROUP loop keeps a gate's variant id in the allowed set. -/
theorem groupsLoopF_vidOK (ruleEval : Rule → EvalSt → CondOut)
    (vv : Option (List (String × VarMap))) :
    ∀ (rules : List Rule) (st : EvalSt) (r : ABResult),
      rulesOvOK rules → vidOK r.variantID →
      vidOK (groupsLoopF ruleEval vv rules st r).result.variantID := by
  intro rules
  induction rules with
  | nil => intro st r _ hr; exact hr
  | cons rule rest ih =>
      intro st r hok hr
      have hok' : rulesOvOK rest := fun rl hin => hok rl (List.mem_cons_of_mem rule hin)
      simp only [groupsLoopF]
      rcases ruleEval rule st with ⟨st2, pass, err⟩
      cases err with
      | some e => exact hr
      | none =>
          cases pass with
          | false => exact ih st2 r hok' hr
          | true =>
              cases hov : rule.override with
              | none => exact hr
              | some ov =>
                  have : ov = "pass" ∨ ov = "fail" :=
                    hok rule (List.mem_cons_self rule rest) ov hov
                  rcases this with h | h <;> simp [h, vidOK]

/-- Stage form of the variant-id invariant, OVERRIDE class. -/
theorem evalABOverridesF_vidOK (ruleEval : Rule → EvalSt → CondOut)
    (spec : ABSpec) (st : EvalSt) (r : ABResult) (hspec : specOvOK spec)
    (hr : vidOK r.variantID) :
    vidOK (evalABOverridesF ruleEval spec st r).result.variantID := by
  unfold evalABOverridesF
  cases hl : assocLookup spec.rules "OVERRIDE" with
  | none => exact hr
  | some rules =>
      exact overridesLoopF_vidOK ruleEval spec.variantValues rules st r
        (hspec _ (assocLookup_mem spec.rules "OVERRIDE" rules hl)) hr

/-- Stage form of the variant-id invariant, TRAFFIC class. -/
theorem evalABTrafficF_vidOK (ruleEval : Rule → EvalSt → CondOut)
    (spec : ABSpec) (st : EvalSt) (r : ABResult) (hspec : specOvOK spec)
    (hr : vidOK r.variantID) :
    vidOK (evalABTrafficF ruleEval spec st r).result.variantID := by
  unfold evalABTrafficF
  cases hl : assocLookup spec.rules "TRAFFIC" with
  | none => exact hr
  | some rules =>
      exact trafficLoopF_vidOK ruleEval rules st r
        (hspec _ (assocLookup_mem spec.rules "TRAFFIC" rules hl)) hr

/-- Stage form of the variant-id invariant, GATE class. -/
theorem evalABGatesF_vidOK (ruleEval : Rule → EvalSt → CondOut)
    (spec : ABSpec) (st : EvalSt) (r : ABResult) (hspec : specOvOK spec)
    (hr : vidOK r.variantID) :
    vidOK (evalABGatesF ruleEval spec st r).result.variantID := by
  unfold evalABGatesF
  cases hl : assocLookup spec.rules "GATE" with
  | none => exact hr
  | some rules =>
      exact gatesLoopF_vidOK ruleEval spec.variantValues rules st r
        (hspec _ (assocLookup_mem spec.rules "GATE" rules hl)) hr

/-- Stage form of the variant-id invariant, GROUP class. -/
theorem evalABExperimentsF_vidOK (ruleEval : Rule → EvalSt → CondOut)
    (spec : ABSpec) (st : EvalSt) (r : ABResult) (hspec : specOvOK spec)
    (hr : vidOK r.variantID) :
    vidOK (evalABExperimentsF ruleEval spec st r).result.variantID := by
  unfold evalABExperimentsF
  cases hl : assocLookup spec.rules "GROUP" with
  | none => exact hr
  | some rules =>
      exact groupsLoopF_vidOK ruleEval spec.variantValues rules st r
        (hspec _ (assocLookup_mem spec.rules "GROUP" rules hl)) hr

/-- The rule-class pipeline keeps a gate's variant id in the allowed set. -/
theorem evalABRulesCoreF_vidOK (abc : ABCoreM) (recur : RecurT) (user : User)
    (spec : ABSpec) (evalID : String) (index : Nat) (r0 : ABResult) (st : EvalSt)
    (hspec : specOvOK spec) (hr0 : vidOK r0.variantID) :
    vidOK (evalABRulesCoreF abc recur user spec evalID index r0 st).result.variantID := by
  unfold evalABRulesCoreF
  dsimp only
  set ruleEval := mkRuleEval abc recur user evalID index with hre
  have hov := evalABOverridesF_vidOK ruleEval spec st r0 hspec hr0
  set ov := evalABOverridesF ruleEval spec st r0 with hovdef
  clear_value ov
  obtain ⟨st1, r1, handled1, err1⟩ := ov
  simp only at hov ⊢
  cases err1 with
  | some e => exact hov
  | none =>
      cases handled1 with
      | true => exact hov
      | false =>
          simp only [Bool.false_eq_true, if_false]
          have htr := evalABTrafficF_vidOK ruleEval spec st1 r1 hspec hov
          set tr := evalABTrafficF ruleEval spec st1 r1 with htrdef
          clear_value tr
          obtain ⟨st2, r2, handled2, err2⟩ := tr
          simp only at htr ⊢
          cases err2 with
          | some e => exact htr
          | none =>
              cases handled2 with
              | true => exact htr
              | false =>
                  simp only [Bool.false_eq_true, if_false]
                  have hgt := evalABGatesF_vidOK ruleEval spec st2 r2 hspec htr
                  set gt := evalABGatesF ruleEval spec st2 r2 with hgtdef
                  clear_value gt
                  obtain ⟨st3, r3, handled3, err3⟩ := gt
                  simp only at hgt ⊢
                  cases err3 with
                  | some e => exact hgt
                  | none =>
                      by_cases hc :
                        (decide (spec.typ ≠ abTypExp) || !handled3 ||
                          decide (r3.variantID ≠ none)) = true
                      · rw [if_pos hc]; exact hgt
                      · rw [if_neg hc]
                        exact evalABExperimentsF_vidOK ruleEval spec st3 r3 hspec hgt

/-- After `evalABRules` a Gate whose overrides are all pass/fail carries
variant id `"pass"` or `"fail"` (normalization fills an unset id). -/
theorem evalABRulesF_gate_vid (abc : ABCoreM) (recur : RecurT) (user : User)
    (spec : ABSpec) (evalID : String) (index : Nat) (r0 : ABResult) (st : EvalSt)
    (htyp : spec.typ = abTypGate) (hspec : specOvOK spec) (hr0 : vidOK r0.variantID) :
    (evalABRulesF abc recur user spec evalID index r0 st).result.variantID = some "pass" ∨
    (evalABRulesF abc recur user spec evalID index r0 st).result.variantID = some "fail" := by
  unfold evalABRulesF
  dsimp only
  have hc := evalABRulesCoreF_vidOK abc recur user spec evalID index r0 st hspec hr0
  set c := evalABRulesCoreF abc recur user spec evalID index r0 st with hcdef
  clear_value c
  obtain ⟨st1, r1, pass1, err1⟩ := c
  simp only at hc ⊢
  rw [if_pos htyp]
  rcases hv : r1.variantID with _ | v
  · cases pass1 <;> simp
  · show r1.variantID = some "pass" ∨ r1.variantID = some "fail"
    rw [hv] at hc
    rw [hv]
    rcases hc with hc | hc | hc
    · exact absurd hc (by simp)
    · exact Or.inl hc
    · exact Or.inr hc

/-- After `evalABRules` a Gate always carries some variant id: the
deferred normalization fills an unset id on every exit path. -/
theorem evalABRulesF_gate_ne_none (abc : ABCoreM) (recur : RecurT) (user : User)
    (spec : ABSpec) (evalID : String) (index : Nat) (r0 : ABResult) (st : EvalSt)
    (htyp : spec.typ = abTypGate) :
    (evalABRulesF abc recur user spec evalID index r0 st).result.variantID ≠ none := by
  unfold evalABRulesF
  dsimp only
  set c := evalABRulesCoreF abc recur user spec evalID index r0 st with hcdef
  clear_value c
  obtain ⟨st1, r1, pass1, err1⟩ := c
  simp only
  rw [if_pos htyp]
  rcases hv : r1.variantID with _ | v
  · cases pass1 <;> simp
  · simp [hv]

/-! ### Evaluation-path characterizations -/

/-- On the non-sticky path (depth in range, enabled, non-empty subject),
`evalAB` is exactly the seeded rule evaluation. -/
theorem evalAB_nonsticky_path (abc : ABCoreM) (st : EvalSt) (user : User)
    (spec : ABSpec) (index : Nat) (hidx : index < maxRecursionDepth)
    (hen : spec.enabled = true) (hsticky : spec.sticky = false)
    (hid : getEvalID user spec ≠ "") :
    evalAB abc st user spec index =
      evalABRulesF abc (evalABFuel abc 10) user spec (getEvalID user spec)
        (index + 1) (seedResult spec) st := by
  show evalStep abc (evalABFuel abc 10) st user spec index = _
  unfold evalStep
  rw [if_neg (Nat.not_le.mpr hidx)]
  simp only [hen, Bool.not_true, Bool.false_eq_true, if_false, if_neg hid, hsticky]

/-- The deferred sticky writer never changes the result. -/
theorem applyStickyWriter_result (abc : ABCoreM) (key : String) (o : StepOut) :
    (applyStickyWriter abc key o).result = o.result := by
  unfold applyStickyWriter
  by_cases he : o.err = none
  · rw [if_pos he]
    cases o.result.variantID with
    | none => rfl
    | some v =>
        dsimp only
        cases abc.sticky with
        | none => rfl
        | some cfg =>
            dsimp only
            cases cfg.setErr key (cacheEncode v) with
            | none => rfl
            | some e => rfl
  · rw [if_neg he]

/-- `evalABSticky` starting from the empty result either leaves it empty or
copies the spec header (on a cache hit). -/
theorem evalABStickyF_result (abc : ABCoreM) (spec : ABSpec) (evalID : String)
    (st : EvalSt) :
    (evalABStickyF abc spec evalID {} st).result = ({} : ABResult) ∨
      ((evalABStickyF abc spec evalID {} st).result.id = spec.id ∧
        (evalABStickyF abc spec evalID {} st).result.key = spec.key ∧
        (evalABStickyF abc spec evalID {} st).result.typ = spec.typ ∧
        (evalABStickyF abc spec evalID {} st).result.disableImpress = spec.disableImpress) := by
  unfold evalABStickyF
  cases abc.sticky with
  | none => exact Or.inl rfl
  | some cfg =>
      dsimp only
      cases cfg.getErr (stickyKey spec evalID) with
      | some e => exact Or.inl rfl
      | none =>
          dsimp only
          by_cases hc : (assocLookup st.cache (stickyKey spec evalID)).getD "" ≠ ""
          · rw [if_pos hc]
            cases abc.world.decodeCache ((assocLookup st.cache (stickyKey spec evalID)).getD "") with
            | none => exact Or.inl rfl
            | some cacheV =>
                cases cacheV with
                | none => exact Or.inr ⟨rfl, rfl, rfl, rfl⟩
                | some v => exact Or.inr ⟨rfl, rfl, rfl, rfl⟩
          · rw [if_neg hc]
            exact Or.inl rfl

/-! ### C2: error returns carry a partial result -/

/-- The result of `evalAB` is always either the empty result or the seeded
result carrying the spec header. -/
theorem evalAB_result_empty_or_seeded (abc : ABCoreM) (st : EvalSt) (user : User)
    (spec : ABSpec) (index : Nat) :
    (evalAB abc st user spec index).result = ({} : ABResult) ∨
      ((evalAB abc st user spec index).result.id = spec.id ∧
        (evalAB abc st user spec index).result.key = spec.key ∧
        (evalAB abc st user spec index).result.typ = spec.typ ∧
        (evalAB abc st user spec index).result.disableImpress = spec.disableImpress) := by
  show (evalStep abc (evalABFuel abc 10) st user spec index).result = ({} : ABResult) ∨
      ((evalStep abc (evalABFuel abc 10) st user spec index).result.id = spec.id ∧
        (evalStep abc (evalABFuel abc 10) st user spec index).result.key = spec.key ∧
        (evalStep abc (evalABFuel abc 10) st user spec index).result.typ = spec.typ ∧
        (evalStep abc (evalABFuel abc 10) st user spec index).result.disableImpress =
          spec.disableImpress)
  unfold evalStep
  by_cases h1 : maxRecursionDepth ≤ index
  · rw [if_pos h1]
    exact Or.inl rfl
  · rw [if_neg h1]
    dsimp only
    cases hen : spec.enabled with
    | false => exact Or.inl rfl
    | true =>
        simp only [Bool.not_true, Bool.false_eq_true, if_false]
        by_cases h3 : getEvalID user spec = ""
        · rw [if_pos h3]
          exact Or.inl rfl
        · rw [if_neg h3]
          cases hstk : spec.sticky with
          | false =>
              simp only [Bool.false_eq_true, if_false]
              have hs := evalABRulesF_sameSeed abc (evalABFuel abc 10) user spec
                (getEvalID user spec) (index + 1) (seedResult spec) st
              exact Or.inr ⟨hs.1, hs.2.1, hs.2.2.1, hs.2.2.2⟩
          | true =>
              simp only [if_true]
              have hso := evalABStickyF_result abc spec (getEvalID user spec) st
              set so := evalABStickyF abc spec (getEvalID user spec) ({} : ABResult) st
                with hsodef
              clear_value so
              obtain ⟨sst, sres, shandled, skey, serr⟩ := so
              simp only at hso ⊢
              by_cases h4 : (shandled || decide (serr ≠ none)) = true
              · rw [if_pos h4]
                exact hso
              · rw [if_neg h4]
                rw [applyStickyWriter_result]
                have hs := evalABRulesF_sameSeed abc (evalABFuel abc 10) user spec
                  (getEvalID user spec) (index + 1) (seedResult spec) sst
                exact Or.inr ⟨hs.1, hs.2.1, hs.2.2.1, hs.2.2.2⟩

/-- C2, amended.  When `evalAB` returns a non-nil error the result is not
always empty: it is either the empty result (sticky-stage errors) or the
seeded result carrying the spec's id, key, type and disable-impress flag
(rule-evaluation and sticky-write errors, with a gate-normalized variant id
for gates); the client facade discards this partial result on error. -/
theorem evalAB_error_partial_result (abc : ABCoreM) (st : EvalSt) (user : User)
    (spec : ABSpec) (index : Nat)
    (_herr : (evalAB abc st user spec index).err ≠ none) :
    (evalAB abc st user spec index).result = ({} : ABResult) ∨
      ((evalAB abc st user spec index).result.id = spec.id ∧
        (evalAB abc st user spec index).result.key = spec.key ∧
        (evalAB abc st user spec index).result.typ = spec.typ ∧
        (evalAB abc st user spec index).result.disableImpress = spec.disableImpress) :=
  evalAB_result_empty_or_seeded abc st user spec index

/-- A user with AB properties, used by the C2 counterexample. -/
def exUser : User := { loginID := "u" }

/-- A gate spec whose single GATE rule has an unknown `common` field, so
rule evaluation errors. -/
def badCondSpec : ABSpec :=
  { id := 7
    key := "bad-cond"
    typ := 1
    subjectID := "login_id"
    enabled := true
    rules := [("GATE", [{ rollout := 100, conditions := [{ fieldClass := "common", field := "weird", opt := "eq" }] }])] }

/-- A core holding the erroring spec. -/
def badCondCore : ABCoreM :=
  { world := exWorld, storage := some { specs := [("bad-cond", badCondSpec)] } }

/-- Counterexample to C2: `evalAB` returns the unknown-common-field error
together with a result whose id, key, type and (normalized) variant id are
set — a partial result is returned with the error. -/
theorem evalAB_error_partial_counterexample :
    (evalAB badCondCore {} exUser badCondSpec 0).err =
        some (GoErr.unknownCommonField "weird") ∧
      (evalAB badCondCore {} exUser badCondSpec 0).result.id = 7 ∧
      (evalAB badCondCore {} exUser badCondSpec 0).result.key = "bad-cond" ∧
      (evalAB badCondCore {} exUser badCondSpec 0).result.variantID = some "fail" := by
  refine ⟨?_, ?_, ?_, ?_⟩ <;> decide

/-- Witness for the amended C2 at the erroring spec. -/
theorem evalAB_error_partial_result_witness :
    (evalAB badCondCore {} exUser badCondSpec 0).err ≠ none ∧
      ((evalAB badCondCore {} exUser badCondSpec 0).result = ({} : ABResult) ∨
        ((evalAB badCondCore {} exUser badCondSpec 0).result.id = badCondSpec.id ∧
          (evalAB badCondCore {} exUser badCondSpec 0).result.key = badCondSpec.key ∧
          (evalAB badCondCore {} exUser badCondSpec 0).result.typ = badCondSpec.typ ∧
          (evalAB badCondCore {} exUser badCondSpec 0).result.disableImpress =
            badCondSpec.disableImpress)) :=
  ⟨by decide, evalAB_error_partial_result badCondCore {} exUser badCondSpec 0 (by decide)⟩

/-! ### C1: gate variant-id normalization -/

/-- A gate spec whose OVERRIDE rule forces the non-gate variant `"v1"`. -/
def overrideGateSpec : ABSpec :=
  { id := 5
    key := "og"
    typ := 1
    subjectID := "login_id"
    enabled := true
    rules := [("OVERRIDE", [{ rollout := 100, override := some "v1" }])] }

/-- A core holding the override gate. -/
def overrideGateCore : ABCoreM :=
  { world := exWorld, storage := some { specs := [("og", overrideGateSpec)] } }

/-- Counterexample to C1: an enabled, non-sticky Gate with a non-empty
subject whose OVERRIDE rule carries variant `"v1"` evaluates, without
error, to `variantID = "v1"` — outside `{"pass", "fail"}` (overrides and
sticky-cache hits bypass the normalization). -/
theorem evalAB_gate_variant_counterexample :
    overrideGateSpec.enabled = true ∧
      overrideGateSpec.typ = abTypGate ∧
      overrideGateSpec.sticky = false ∧
      getEvalID exUser overrideGateSpec = "u" ∧
      (evalAB overrideGateCore {} exUser overrideGateSpec 0).err = none ∧
      (evalAB overrideGateCore {} exUser overrideGateSpec 0).result.variantID = some "v1" := by
  refine ⟨rfl, rfl, rfl, by decide, ?_, ?_⟩ <;> decide

/-- C1, amended.  For every enabled, non-sticky Gate spec with a non-empty
resolved subject value, evaluated below the recursion bound, whose rule
overrides all lie in `{"pass", "fail"}`, the evaluator's variant id is
`"pass"` or `"fail"`: the deferred normalization runs on every exit path of
rule evaluation (sticky-cache hits, which bypass rule evaluation, return
the cached variant id verbatim and are excluded here). -/
theorem evalAB_gate_normalized (abc : ABCoreM) (st : EvalSt) (user : User)
    (spec : ABSpec) (index : Nat) (hen : spec.enabled = true)
    (htyp : spec.typ = abTypGate) (hsticky : spec.sticky = false)
    (hid : getEvalID user spec ≠ "") (hidx : index < maxRecursionDepth)
    (hov : specOvOK spec) :
    (evalAB abc st user spec index).result.variantID = some "pass" ∨
      (evalAB abc st user spec index).result.variantID = some "fail" := by
  rw [evalAB_nonsticky_path abc st user spec index hidx hen hsticky hid]
  exact evalABRulesF_gate_vid abc (evalABFuel abc 10) user spec (getEvalID user spec)
    (index + 1) (seedResult spec) st htyp hov (Or.inl rfl)

/-- The public-rollout gate of the specification's first scenario. -/
def pubGateSpec : ABSpec :=
  { id := 1
    key := "pub"
    typ := 1
    subjectID := "login_id"
    enabled := true
    rules := [("GATE", [{ rollout := 100, conditions := [{ fieldClass := "common", field := "public", opt := "is_true" }] }])] }

/-- A core holding the public gate. -/
def pubGateCore : ABCoreM :=
  { world := exWorld, storage := some { specs := [("pub", pubGateSpec)] } }

/-- The public gate has no rule overrides at all. -/
theorem pubGateSpec_ovOK : specOvOK pubGateSpec := by
  intro pr hpr rule hrule v hov
  simp only [pubGateSpec, List.mem_singleton] at hpr
  subst hpr
  simp only [List.mem_singleton] at hrule
  subst hrule
  simp at hov

/-- Witness for the amended C1 at the public-rollout gate. -/
theorem evalAB_gate_normalized_witness :
    pubGateSpec.enabled = true ∧ pubGateSpec.typ = abTypGate ∧
      pubGateSpec.sticky = false ∧ getEvalID exUser pubGateSpec ≠ "" ∧
      0 < maxRecursionDepth ∧ specOvOK pubGateSpec ∧
      ((evalAB pubGateCore {} exUser pubGateSpec 0).result.variantID = some "pass" ∨
        (evalAB pubGateCore {} exUser pubGateSpec 0).result.variantID = some "fail") :=
  ⟨rfl, rfl, rfl, by decide, by decide, pubGateSpec_ovOK,
    evalAB_gate_normalized pubGateCore {} exUser pubGateSpec 0 rfl rfl rfl
      (by decide) (by decide) pubGateSpec_ovOK⟩

/-! ### C10: missing subject keys format as `"<nil>"` -/

/-- C10.  When the spec's subject id is neither `anon_id` nor `login_id`
(case-insensitively) and the user's AB properties lack that key, the
resolved subject is the non-empty formatted nil `"<nil>"`, so an enabled
non-sticky gate proceeds through rule evaluation (yielding a variant id)
instead of returning the empty result for a missing subject. -/
theorem getEvalID_missing_subject (abc : ABCoreM) (st : EvalSt) (user : User)
    (spec : ABSpec) (index : Nat)
    (h1 : strEqFold spec.subjectID "anon_id" = false)
    (h2 : strEqFold spec.subjectID "login_id" = false)
    (h3 : assocLookup user.abUserProperties spec.subjectID = none) :
    getEvalID user spec = "<nil>" ∧
      (spec.enabled = true → spec.sticky = false → spec.typ = abTypGate →
        index < maxRecursionDepth →
        (evalAB abc st user spec index).result.variantID ≠ none) := by
  have hid : getEvalID user spec = "<nil>" := by
    unfold getEvalID
    rw [h1, h2, h3]
    simp [goFormatV]
  refine ⟨hid, fun hen hsticky htyp hidx => ?_⟩
  rw [evalAB_nonsticky_path abc st user spec index hidx hen hsticky
    (by rw [hid]; decide)]
  exact evalABRulesF_gate_ne_none abc (evalABFuel abc 10) user spec
    (getEvalID user spec) (index + 1) (seedResult spec) st htyp

/-- A gate keyed on the AB property `"color"`, which `exUser` lacks. -/
def nilSubjectSpec : ABSpec :=
  { id := 11
    key := "ns"
    typ := 1
    subjectID := "color"
    enabled := true }

/-- A core holding the nil-subject gate. -/
def nilSubjectCore : ABCoreM :=
  { world := exWorld, storage := some { specs := [("ns", nilSubjectSpec)] } }

/-- Witness for C10 at the `"color"`-keyed gate and a user without that
property. -/
theorem getEvalID_missing_subject_witness :
    strEqFold nilSubjectSpec.subjectID "anon_id" = false ∧
      strEqFold nilSubjectSpec.subjectID "login_id" = false ∧
      assocLookup exUser.abUserProperties nilSubjectSpec.subjectID = none ∧
      (getEvalID exUser nilSubjectSpec = "<nil>" ∧
        (nilSubjectSpec.enabled = true → nilSubjectSpec.sticky = false →
          nilSubjectSpec.typ = abTypGate → 0 < maxRecursionDepth →
          (evalAB nilSubjectCore {} exUser nilSubjectSpec 0).result.variantID ≠ none)) :=
  ⟨by decide, by decide, rfl,
    getEvalID_missing_subject nilSubjectCore {} exUser nilSubjectSpec 0
      (by decide) (by decide) rfl⟩

/-! ### C3: `CheckFeatureGate` against the evaluation result -/

/-- `CheckFeatureGate` of a result holds exactly when its variant id is
`"pass"`. -/
theorem checkFeatureGate_eq_pass (r : ABResult) :
    r.checkFeatureGate = true ↔ r.variantID = some "pass" := by
  unfold ABResult.checkFeatureGate
  cases r.variantID with
  | none => simp
  | some v => simp

/-- C3.  For a key bound to a Gate spec in the current snapshot and a valid
user, `CheckFeatureGate` returns `true` (with no error) exactly when the
unfiltered evaluation of the same key returns, without error, a result
whose variant id is `"pass"`. -/
theorem clientCheckFeatureGate_iff (abc : ABCoreM) (st : EvalSt) (user : User)
    (key : String) (s : StorageM) (spec : ABSpec)
    (hst : abc.storage = some s) (hspec : assocLookup s.specs key = some spec)
    (htyp : spec.typ = abTypGate)
    (huser : ¬(user.anonID = "" ∧ user.loginID = "")) :
    clientCheckFeatureGate (some abc) st user key = (true, none) ↔
      ((coreEvaluate abc st user key none).err = none ∧
        (coreEvaluate abc st user key none).result.variantID = some "pass") := by
  have hlookup : getABSpec abc key = some spec := by
    unfold getABSpec
    rw [hst]
    exact hspec
  unfold clientCheckFeatureGate coreEvaluate validateUser
  dsimp only
  simp only [hst, hlookup, htyp, Option.isNone_some, Bool.false_eq_true, if_false,
    ne_eq, not_true_eq_false, if_neg huser]
  set o := evalAB abc st user spec 0 with hodef
  clear_value o
  obtain ⟨ost, ores, oerr⟩ := o
  simp only
  cases oerr with
  | some e => simp
  | none =>
      simp only [Prod.mk.injEq, and_true, true_and]
      exact checkFeatureGate_eq_pass ores

/-- Witness for C3 at the public-rollout gate and a valid user. -/
theorem clientCheckFeatureGate_iff_witness :
    pubGateCore.storage = some { specs := [("pub", pubGateSpec)] } ∧
      assocLookup [("pub", pubGateSpec)] "pub" = some pubGateSpec ∧
      pubGateSpec.typ = abTypGate ∧
      ¬(exUser.anonID = "" ∧ exUser.loginID = "") ∧
      (clientCheckFeatureGate (some pubGateCore) {} exUser "pub" = (true, none) ↔
        ((coreEvaluate pubGateCore {} exUser "pub" none).err = none ∧
          (coreEvaluate pubGateCore {} exUser "pub" none).result.variantID = some "pass")) :=
  ⟨rfl, rfl, rfl, by decide,
    clientCheckFeatureGate_iff pubGateCore {} exUser "pub"
      { specs := [("pub", pubGateSpec)] } pubGateSpec rfl rfl rfl (by decide)⟩

/-! ### C7: the deferred sticky writer -/

/-- On a handler-present sticky miss (empty or undecodable cached value),
`evalABSticky` reports an unhandled miss with the sticky key and no
error, leaving the empty result and the state untouched. -/
theorem evalABStickyF_miss (abc : ABCoreM) (spec : ABSpec) (evalID : String)
    (st : EvalSt) (cfg : StickyCfg) (hcfg : abc.sticky = some cfg)
    (hget : cfg.getErr (stickyKey spec evalID) = none)
    (hmiss : (assocLookup st.cache (stickyKey spec evalID)).getD "" = "" ∨
      abc.world.decodeCache ((assocLookup st.cache (stickyKey spec evalID)).getD "") = none) :
    evalABStickyF abc spec evalID {} st =
      ⟨st, {}, false, stickyKey spec evalID, none⟩ := by
  unfold evalABStickyF
  rw [hcfg]
  dsimp only
  rw [hget]
  dsimp only
  by_cases hc : (assocLookup st.cache (stickyKey spec evalID)).getD "" ≠ ""
  · rw [if_pos hc]
    rcases hmiss with hmiss | hmiss
    · exact absurd hmiss hc
    · rw [hmiss]
  · rw [if_neg hc]

/-- C7, amended.  For a sticky spec with a handler present, when the sticky
read misses (empty or undecodable cached value), evaluation is exactly rule
evaluation followed by the deferred writer; the writer invokes the
handler's set operation exactly once, with key `"{specID}-{subjectID}"` and
the JSON value `{"v": "<variant-id>"}`, precisely when rule evaluation
finished without error and chose a non-null variant id, and performs no
write otherwise.  (A sticky cache hit returns before the writer is
installed and writes nothing.) -/
theorem evalAB_sticky_writer (abc : ABCoreM) (st : EvalSt) (user : User)
    (spec : ABSpec) (index : Nat) (cfg : StickyCfg)
    (hidx : index < maxRecursionDepth) (hen : spec.enabled = true)
    (hsticky : spec.sticky = true) (hid : getEvalID user spec ≠ "")
    (hcfg : abc.sticky = some cfg)
    (hget : cfg.getErr (stickyKey spec (getEvalID user spec)) = none)
    (hmiss : (assocLookup st.cache (stickyKey spec (getEvalID user spec))).getD "" = "" ∨
      abc.world.decodeCache
        ((assocLookup st.cache (stickyKey spec (getEvalID user spec))).getD "") = none) :
    evalAB abc st user spec index =
      applyStickyWriter abc (stickyKey spec (getEvalID user spec))
        (evalABRulesF abc (evalABFuel abc 10) user spec (getEvalID user spec)
          (index + 1) (seedResult spec) st) ∧
    (∀ (k : String) (o : StepOut) (v : String), o.err = none →
      o.result.variantID = some v →
      (applyStickyWriter abc k o).st.writes = o.st.writes ++ [(k, cacheEncode v)]) ∧
    (∀ (k : String) (o : StepOut), o.err = none → o.result.variantID = none →
      applyStickyWriter abc k o = o) ∧
    (∀ (k : String) (o : StepOut), o.err ≠ none → applyStickyWriter abc k o = o) := by
  refine ⟨?_, ?_, ?_, ?_⟩
  · show evalStep abc (evalABFuel abc 10) st user spec index = _
    unfold evalStep
    rw [if_neg (Nat.not_le.mpr hidx)]
    simp only [hen, Bool.not_true, Bool.false_eq_true, if_false, if_neg hid, hsticky,
      if_true]
    rw [evalABStickyF_miss abc spec (getEvalID user spec) st cfg hcfg hget hmiss]
    simp
  · intro k o v he hv
    unfold applyStickyWriter
    rw [if_pos he, hv]
    dsimp only
    rw [hcfg]
    dsimp only
    cases cfg.setErr k (cacheEncode v) with
    | none => rfl
    | some e => rfl
  · intro k o he hv
    unfold applyStickyWriter
    rw [if_pos he, hv]
  · intro k o he
    unfold applyStickyWriter
    rw [if_neg he]

/-- A sticky config spec with one variant table entry. -/
def stickySpec : ABSpec :=
  { id := 42
    key := "stc"
    typ := 2
    subjectID := "login_id"
    enabled := true
    sticky := true
    variantValues := some [("v2", [("color", .vStr "red")])] }

/-- A world whose cache decoder recognizes the encoded `"v2"` entry. -/
def stickyWorld : World :=
  { decodePayload := fun _ => none
    decodeCache := fun s => if s = cacheEncode "v2" then some (some "v2") else none
    parseRFC3339 := fun _ => none
    nowYear := 2026
    nowMs := 1760000000000
    newTraceID := "trace" }

/-- A core with the sticky spec and a well-behaved sticky handler. -/
def stickyCore : ABCoreM :=
  { world := stickyWorld
    storage := some { specs := [("stc", stickySpec)] }
    sticky := some {} }

/-- The user the sticky scenarios evaluate. -/
def stickyUser : User := { loginID := "user42" }

/-- A sticky state whose cache already holds `{"v":"v2"}` for the key. -/
def stickyHitSt : EvalSt := { cache := [("42-user42", cacheEncode "v2")] }

/-- Counterexample to C7: on a sticky cache hit the evaluation finishes
without error and carries the non-null cached variant `"v2"`, yet the
handler's set operation is never invoked (the write log stays empty) —
the deferred writer is installed only on the miss path. -/
theorem evalAB_sticky_writer_counterexample :
    stickySpec.sticky = true ∧
      stickyCore.sticky = some {} ∧
      (evalAB stickyCore stickyHitSt stickyUser stickySpec 0).err = none ∧
      (evalAB stickyCore stickyHitSt stickyUser stickySpec 0).result.variantID = some "v2" ∧
      (evalAB stickyCore stickyHitSt stickyUser stickySpec 0).st.writes = [] := by
  refine ⟨rfl, rfl, ?_, ?_, ?_⟩ <;> decide

/-- Witness for the amended C7: the sticky miss on an empty cache. -/
theorem evalAB_sticky_writer_witness :
    0 < maxRecursionDepth ∧ stickySpec.enabled = true ∧ stickySpec.sticky = true ∧
      getEvalID stickyUser stickySpec ≠ "" ∧ stickyCore.sticky = some {} ∧
      (evalAB stickyCore {} stickyUser stickySpec 0 =
        applyStickyWriter stickyCore (stickyKey stickySpec (getEvalID stickyUser stickySpec))
          (evalABRulesF stickyCore (evalABFuel stickyCore 10) stickyUser stickySpec
            (getEvalID stickyUser stickySpec) 1 (seedResult stickySpec) {}) ∧
        (∀ (k : String) (o : StepOut) (v : String), o.err = none →
          o.result.variantID = some v →
          (applyStickyWriter stickyCore k o).st.writes = o.st.writes ++ [(k, cacheEncode v)]) ∧
        (∀ (k : String) (o : StepOut), o.err = none → o.result.variantID = none →
          applyStickyWriter stickyCore k o = o) ∧
        (∀ (k : String) (o : StepOut), o.err ≠ none → applyStickyWriter stickyCore k o = o)) :=
  ⟨by decide, rfl, rfl, by decide, rfl,
    evalAB_sticky_writer stickyCore {} stickyUser stickySpec 0 {} (by decide) rfl rfl
      (by decide) rfl rfl (Or.inl rfl)⟩
